import Mathlib

/-!
Verification of the bsky-feed-generator storage/ingestion/query core.

A shallow embedding of the storage adapter contract (three backend
variants: SQLite, PostgreSQL, MongoDB), the firehose ingestion pipeline
(`FirehoseSubscription.handleEvent`), and the `whats-alf` filtered feed
algorithm, translated from the TypeScript sources:

* `src/db/adapters/sqlite.ts`, `src/db/adapters/postgresql.ts`,
  `src/db/adapters/mongodb.ts` — the `posts` / `subscriptionState`
  operations of each adapter;
* `src/subscription.ts` (`FirehoseSubscription.handleEvent`) — the
  per-batch delete-then-create loops with per-record try/catch;
* `src/algos/whats-alf.ts` — the filtered feed handler.

Modelling conventions:

* A JavaScript `Date` value is its millisecond-since-epoch count, a `Nat`
  (all dates produced by the pipeline are `new Date()` calls, after 1970).
  `Date.prototype.toISOString` is implemented as real Gregorian calendar
  arithmetic (`isoOfMs`); `new Date(string)` is modelled by `parseIsoZ`,
  which accepts exactly the canonical 24-character `YYYY-MM-DDTHH:MM:SS.mmmZ`
  form produced by `toISOString` and yields `none` (an Invalid Date) on
  anything else.  Record outputs carry `Option Nat`, `none` standing for an
  Invalid Date.
* SQL `VARCHAR` comparison (SQLite `<` on the `indexedAt` column,
  PostgreSQL likewise) is byte-lexicographic, modelled by `strLtB` over
  code points (all stored strings in scope are ASCII).
* JavaScript truthiness on optional strings/numbers (`if (criteria.cursor)`,
  `x || null`, `x || undefined`, `if (criteria.limit)`) is modelled by
  `jsOrNone` / `jsNatOpt`: the empty string and `0` are falsy.
* `ORDER BY ... DESC` on each engine is modelled by one deterministic
  stable insertion sort (`sortByRel`); the engines leave the relative
  order of equal keys unspecified, and no claim below depends on which
  tied order an engine picks beyond what the model fixes.
* `JSON.parse` followed by `.text` access in the whats-alf filter is
  modelled by `jsonTextField`, a parser for flat JSON objects with string
  values and no escape sequences — the shape every payload in scope has;
  any other input is a parse failure (`none`), as in the handler's catch.
* `randomUUID()` is an explicit `freshId` argument to `create`.
-/

/-! ## Byte-lexicographic string comparison (SQL VARCHAR `<`) -/

/-- Lexicographic strict comparison of char lists by code point. -/
def strLtAux : List Char → List Char → Bool
  | [], [] => false
  | [], _ :: _ => true
  | _ :: _, [] => false
  | a :: as, b :: bs =>
    if a.toNat < b.toNat then true
    else if b.toNat < a.toNat then false
    else strLtAux as bs

/-- SQL `VARCHAR` strict `<`, byte order (ASCII scope). -/
def strLtB (a b : String) : Bool := strLtAux a.data b.data

/-! ## JavaScript truthiness helpers -/

/-- JS `x || null` / `x || undefined` / `if (x)` on an optional string:
the empty string is falsy. -/
def jsOrNone : Option String → Option String
  | some s => if s = "" then none else some s
  | none => none

/-- JS `if (criteria.limit)` on an optional count: `0` is falsy. -/
def jsNatOpt : Option Nat → Option Nat
  | some 0 => none
  | x => x

/-! ## Gregorian calendar arithmetic: `Date.prototype.toISOString` -/

/-- Days since 1970-01-01 to a civil `(year, month, day)` triple
(Howard Hinnant's `civil_from_days`, specialised to nonnegative days). -/
def civilFromDays (z : Nat) : Nat × Nat × Nat :=
  let z' := z + 719468
  let era := z' / 146097
  let doe := z' % 146097
  let yoe := (doe - doe / 1460 + doe / 36524 - doe / 146096) / 365
  let y := yoe + era * 400
  let doy := doe - (365 * yoe + yoe / 4 - yoe / 100)
  let mp := (5 * doy + 2) / 153
  let d := doy - (153 * mp + 2) / 5 + 1
  let m := if mp < 10 then mp + 3 else mp - 9
  (if m ≤ 2 then y + 1 else y, m, d)

/-- Civil `(year, month, day)` (year ≥ 1970) to days since 1970-01-01
(Hinnant's `days_from_civil`). -/
def daysFromCivil (y m d : Nat) : Nat :=
  let y' := if m ≤ 2 then y - 1 else y
  let era := y' / 400
  let yoe := y' % 400
  let mp := if 2 < m then m - 3 else m + 9
  let doy := (153 * mp + 2) / 5 + d - 1
  let doe := yoe * 365 + yoe / 4 - yoe / 100 + doy
  era * 146097 + doe - 719468

/-- Zero-pad a decimal numeral to width `w`. -/
def padNum (w n : Nat) : String :=
  let s := Nat.repr n
  String.mk (List.replicate (w - s.length) '0') ++ s

/-- JS `new Date(t).toISOString()` for a valid date `t` (ms since epoch,
years below 10000): `"YYYY-MM-DDTHH:MM:SS.mmmZ"`. -/
def isoOfMs (t : Nat) : String :=
  let ms := t % 1000
  let ts := t / 1000
  let ss := ts % 60
  let tm := ts / 60
  let mm := tm % 60
  let th := tm / 60
  let hh := th % 24
  let days := th / 24
  let c := civilFromDays days
  padNum 4 c.1 ++ "-" ++ padNum 2 c.2.1 ++ "-" ++ padNum 2 c.2.2 ++ "T" ++
    padNum 2 hh ++ ":" ++ padNum 2 mm ++ ":" ++ padNum 2 ss ++ "." ++
    padNum 3 ms ++ "Z"

/-- Decimal digit value of a char, if it is a digit. -/
def digitVal (c : Char) : Option Nat :=
  if '0' ≤ c ∧ c ≤ '9' then some (c.toNat - '0'.toNat) else none

/-- Read a fixed-width run of digits as a number. -/
def digitsVal : List Char → Option Nat
  | [] => some 0
  | c :: cs => do
    let d ← digitVal c
    let rest ← digitsVal cs
    some (d * 10 ^ cs.length + rest)

/-- Length of a Gregorian month. -/
def daysInMonth (y m : Nat) : Nat :=
  if m = 2 then
    if y % 4 = 0 ∧ (y % 100 ≠ 0 ∨ y % 400 = 0) then 29 else 28
  else if m = 4 ∨ m = 6 ∨ m = 9 ∨ m = 11 then 30
  else 31

/-- JS `new Date(s).getTime()` restricted to the canonical ISO form the
adapters themselves store (`YYYY-MM-DDTHH:MM:SS.mmmZ`, year ≥ 1970):
`none` is an Invalid Date.  JS accepts further date formats that never
occur in this system's stored data. -/
def parseIsoZ (s : String) : Option Nat :=
  match s.data with
  | [y1, y2, y3, y4, '-', m1, m2, '-', d1, d2, 'T',
     h1, h2, ':', n1, n2, ':', s1, s2, '.', f1, f2, f3, 'Z'] => do
    let y ← digitsVal [y1, y2, y3, y4]
    let mo ← digitsVal [m1, m2]
    let dd ← digitsVal [d1, d2]
    let hh ← digitsVal [h1, h2]
    let mm ← digitsVal [n1, n2]
    let ss ← digitsVal [s1, s2]
    let ms ← digitsVal [f1, f2, f3]
    if 1970 ≤ y ∧ 1 ≤ mo ∧ mo ≤ 12 ∧ 1 ≤ dd ∧ dd ≤ daysInMonth y mo ∧
        hh < 24 ∧ mm < 60 ∧ ss < 60 then
      some ((((daysFromCivil y mo dd * 24 + hh) * 60 + mm) * 60 + ss) * 1000 + ms)
    else none
  | _ => none

/-- JS `parseInt(s, 10)` restricted to plain decimal numerals (the only
cursor strings this system ever produces, via `getTime().toString(10)`):
`none` is `NaN`. -/
def parseDecimal (s : String) : Option Nat :=
  match s.data with
  | [] => none
  | cs =>
    if cs.all (fun c => '0' ≤ c ∧ c ≤ '9') then digitsVal cs else none

/-! ## Deterministic stable sort standing in for `ORDER BY` -/

/-- Stable insertion of `a` into `l`: `a` goes before the first element
`b` with `le a b`. -/
def insertByRel (le : α → α → Bool) (a : α) : List α → List α
  | [] => [a]
  | b :: bs => if le a b then a :: b :: bs else b :: insertByRel le a bs

/-- Stable insertion sort by a boolean "should come no later than"
relation; the deterministic model of each engine's `ORDER BY`. -/
def sortByRel (le : α → α → Bool) : List α → List α
  | [] => []
  | a :: as => insertByRel le a (sortByRel le as)

/-! ## Data model (`src/db/interfaces.ts`) -/

/-- Model of `Omit<PostRecord, 'id'>` — the argument of `posts.create`, as built by
the ingestion pipeline.  `indexedAt` is a valid JS `Date` (ms since
epoch). -/
structure PostInput where
  uri : String
  cid : String
  replyParent : Option String
  replyRoot : Option String
  authorDid : String
  recordJson : String
  indexedAt : Nat
deriving DecidableEq, Repr

/-- Model of `PostRecord` as returned by the adapters.  `indexedAt` is
`Option Nat` because the SQLite/PostgreSQL read path rebuilds it with
`new Date(row.indexedAt)`, which can be an Invalid Date (`none`). -/
structure PostRecord where
  id : String
  uri : String
  cid : String
  replyParent : Option String
  replyRoot : Option String
  authorDid : String
  recordJson : String
  indexedAt : Option Nat
deriving DecidableEq, Repr

/-- The criteria argument of `posts.findMany`. -/
structure FindCriteria where
  authorDid : Option String
  limit : Option Nat
  cursor : Option String
deriving DecidableEq, Repr

/-- Duplicate-key rejection: every engine signals a unique-constraint
violation with a dedicated error distinguishable from other failures
(SQLite `SQLITE_CONSTRAINT_PRIMARYKEY`, PostgreSQL `23505`,
MongoDB `E11000`). -/
inductive DbErr where
  | duplicateKey
deriving DecidableEq, Repr

/-- The logical outcome of one write operation — what §8 calls the
"uniqueness/deletion outcomes".  The `id` of a created record is a fresh
`randomUUID()` and is never stored, so it is not part of the logical
outcome. -/
inductive OpOutcome where
  | created
  | duplicate
  | deleted (removed : Bool)
  | updatedSub
deriving DecidableEq, Repr

/-! ## SQLite adapter (`src/db/adapters/sqlite.ts`) -/

/-- One row of the SQLite `post` table: `replyParent`/`replyRoot` are
nullable columns, `indexedAt` is a `varchar` holding
`indexedAt.toISOString()`. -/
structure SRow where
  uri : String
  cid : String
  replyParent : Option String
  replyRoot : Option String
  authorDid : String
  recordJson : String
  indexedAt : String
deriving DecidableEq, Repr

/-- SQLite adapter state: the `post` table (in insertion order) and the
`sub_state` table. -/
structure SState where
  posts : List SRow
  subs : List (String × Int)
deriving DecidableEq, Repr

/-- The empty (freshly migrated) SQLite store. -/
def SState.empty : SState := ⟨[], []⟩

/-- The row `posts.create` inserts: `replyParent: newPost.replyParent || null`,
`indexedAt: newPost.indexedAt.toISOString()`. -/
def sqliteRowOf (p : PostInput) : SRow :=
  { uri := p.uri
    cid := p.cid
    replyParent := jsOrNone p.replyParent
    replyRoot := jsOrNone p.replyRoot
    authorDid := p.authorDid
    recordJson := p.recordJson
    indexedAt := isoOfMs p.indexedAt }

/-- Operation `SQLiteAdapter.posts.create`: insert into `post`; the `uri` primary
key rejects a duplicate.  On success the returned `PostRecord` is
`{ id: randomUUID(), ...post }` — the caller's fields untouched. -/
def sqliteCreate (s : SState) (p : PostInput) (freshId : String) :
    Except DbErr (SState × PostRecord) :=
  if s.posts.any (fun r => r.uri == p.uri) then .error .duplicateKey
  else
    .ok ({ s with posts := s.posts ++ [sqliteRowOf p] },
      { id := freshId, uri := p.uri, cid := p.cid,
        replyParent := p.replyParent, replyRoot := p.replyRoot,
        authorDid := p.authorDid, recordJson := p.recordJson,
        indexedAt := some p.indexedAt })

/-- The row-to-record mapping of the SQLite read path:
`id: row.uri`, `replyParent: row.replyParent || undefined`,
`indexedAt: new Date(row.indexedAt)`. -/
def sRecordOfRow (r : SRow) : PostRecord :=
  { id := r.uri
    uri := r.uri
    cid := r.cid
    replyParent := jsOrNone r.replyParent
    replyRoot := jsOrNone r.replyRoot
    authorDid := r.authorDid
    recordJson := r.recordJson
    indexedAt := parseIsoZ r.indexedAt }

/-- Descending `ORDER BY indexedAt` on the varchar column: `a` may come
before `b` iff `a.indexedAt` is not strictly below `b.indexedAt`. -/
def sRowGe (a b : SRow) : Bool := !strLtB a.indexedAt b.indexedAt

/-- Operation `SQLiteAdapter.posts.findMany`: optional `authorDid` equality filter,
optional exclusive `indexedAt < cursor` filter (varchar comparison),
`ORDER BY indexedAt DESC`, optional `LIMIT` — each guarded by JS
truthiness. -/
def sqliteFindMany (s : SState) (c : FindCriteria) : List PostRecord :=
  let rows := s.posts
  let rows := match jsOrNone c.authorDid with
    | some a => rows.filter (fun r => r.authorDid == a)
    | none => rows
  let rows := match jsOrNone c.cursor with
    | some cur => rows.filter (fun r => strLtB r.indexedAt cur)
    | none => rows
  let rows := sortByRel sRowGe rows
  let rows := match jsNatOpt c.limit with
    | some n => rows.take n
    | none => rows
  rows.map sRecordOfRow

/-- Operation `SQLiteAdapter.posts.findByUri`: first row with the given `uri`. -/
def sqliteFindByUri (s : SState) (uri : String) : Option PostRecord :=
  (s.posts.find? (fun r => r.uri == uri)).map sRecordOfRow

/-- Operation `SQLiteAdapter.posts.deleteByUri`: remove the rows with the given
`uri`; report whether anything was removed. -/
def sqliteDeleteByUri (s : SState) (uri : String) : SState × Bool :=
  ({ s with posts := s.posts.filter (fun r => !(r.uri == uri)) },
    s.posts.any (fun r => r.uri == uri))

/-- Operation `subscriptionState.update`: upsert keyed by `service`
(`ON CONFLICT ... DO UPDATE SET cursor`). -/
def subUpsert (subs : List (String × Int)) (service : String) (cursor : Int) :
    List (String × Int) :=
  if subs.any (fun p => p.1 == service)
  then subs.map (fun p => if p.1 == service then (p.1, cursor) else p)
  else subs ++ [(service, cursor)]

/-- Operation `SQLiteAdapter.subscriptionState.update`. -/
def sqliteSubUpdate (s : SState) (service : String) (cursor : Int) : SState :=
  { s with subs := subUpsert s.subs service cursor }

/-! ## PostgreSQL adapter (`src/db/adapters/postgresql.ts`)

The PostgreSQL adapter stores the same varchar columns
(`indexedAt.toISOString()`, `replyParent || null`) and reads them back
through the same `|| undefined` / `new Date(row.indexedAt)` mapping, so
its state is also a list of `SRow`. -/

/-- Operation `PostgreSQLAdapter.posts.create`: `INSERT INTO post ...`; the `uri`
primary key rejects a duplicate. -/
def pgCreate (s : SState) (p : PostInput) (freshId : String) :
    Except DbErr (SState × PostRecord) :=
  if s.posts.any (fun r => r.uri == p.uri) then .error .duplicateKey
  else
    .ok ({ s with posts := s.posts ++ [sqliteRowOf p] },
      { id := freshId, uri := p.uri, cid := p.cid,
        replyParent := p.replyParent, replyRoot := p.replyRoot,
        authorDid := p.authorDid, recordJson := p.recordJson,
        indexedAt := some p.indexedAt })

/-- Operation `PostgreSQLAdapter.posts.findMany`: dynamically built
`SELECT ... WHERE ... ORDER BY "indexedAt" DESC LIMIT ...` with the same
truthiness guards and the same row mapping as SQLite. -/
def pgFindMany (s : SState) (c : FindCriteria) : List PostRecord :=
  let rows := s.posts
  let rows := match jsOrNone c.authorDid with
    | some a => rows.filter (fun r => r.authorDid == a)
    | none => rows
  let rows := match jsOrNone c.cursor with
    | some cur => rows.filter (fun r => strLtB r.indexedAt cur)
    | none => rows
  let rows := sortByRel sRowGe rows
  let rows := match jsNatOpt c.limit with
    | some n => rows.take n
    | none => rows
  rows.map sRecordOfRow

/-- Operation `PostgreSQLAdapter.posts.findByUri`. -/
def pgFindByUri (s : SState) (uri : String) : Option PostRecord :=
  (s.posts.find? (fun r => r.uri == uri)).map sRecordOfRow

/-- Operation `PostgreSQLAdapter.posts.deleteByUri` (`rowCount > 0`). -/
def pgDeleteByUri (s : SState) (uri : String) : SState × Bool :=
  ({ s with posts := s.posts.filter (fun r => !(r.uri == uri)) },
    s.posts.any (fun r => r.uri == uri))

/-- Operation `PostgreSQLAdapter.subscriptionState.update`
(`ON CONFLICT (service) DO UPDATE`). -/
def pgSubUpdate (s : SState) (service : String) (cursor : Int) : SState :=
  { s with subs := subUpsert s.subs service cursor }

/-! ## MongoDB adapter (`src/db/adapters/mongodb.ts`) -/

/-- One document of the `posts` collection: `indexedAt` is stored as a
native `Date`, and the optional fields are stored as given (no `|| null`
coercion). -/
structure MRow where
  uri : String
  cid : String
  replyParent : Option String
  replyRoot : Option String
  authorDid : String
  recordJson : String
  indexedAt : Nat
deriving DecidableEq, Repr

/-- MongoDB adapter state: the `posts` collection (in insertion order)
and the `subscription_states` collection. -/
structure MState where
  posts : List MRow
  subs : List (String × Int)
deriving DecidableEq, Repr

/-- The empty (freshly set-up) MongoDB store. -/
def MState.empty : MState := ⟨[], []⟩

/-- The document `posts.create` inserts. -/
def mongoRowOf (p : PostInput) : MRow :=
  { uri := p.uri
    cid := p.cid
    replyParent := p.replyParent
    replyRoot := p.replyRoot
    authorDid := p.authorDid
    recordJson := p.recordJson
    indexedAt := p.indexedAt }

/-- Operation `MongoDBAdapter.posts.create`: `insertOne`; the unique index on `uri`
(created by `migrate`) rejects a duplicate with `E11000`. -/
def mongoCreate (s : MState) (p : PostInput) (freshId : String) :
    Except DbErr (MState × PostRecord) :=
  if s.posts.any (fun r => r.uri == p.uri) then .error .duplicateKey
  else
    .ok ({ s with posts := s.posts ++ [mongoRowOf p] },
      { id := freshId, uri := p.uri, cid := p.cid,
        replyParent := p.replyParent, replyRoot := p.replyRoot,
        authorDid := p.authorDid, recordJson := p.recordJson,
        indexedAt := some p.indexedAt })

/-- The document-to-record mapping of the MongoDB read path: `id: doc.uri`,
optional fields passed through unchanged, `indexedAt: doc.indexedAt`. -/
def mRecordOfRow (r : MRow) : PostRecord :=
  { id := r.uri
    uri := r.uri
    cid := r.cid
    replyParent := r.replyParent
    replyRoot := r.replyRoot
    authorDid := r.authorDid
    recordJson := r.recordJson
    indexedAt := some r.indexedAt }

/-- Descending `.sort({ indexedAt: -1 })` on the stored `Date`. -/
def mRowGe (a b : MRow) : Bool := !(a.indexedAt < b.indexedAt : Bool)

/-- Operation `MongoDBAdapter.posts.findMany`: equality filter on `authorDid`,
`indexedAt: { $lt: new Date(criteria.cursor) }` — the cursor string is
date-parsed, and a $lt comparison against an Invalid Date matches no
document — then `.sort({ indexedAt: -1 })` and `.limit()`. -/
def mongoFindMany (s : MState) (c : FindCriteria) : List PostRecord :=
  let rows := s.posts
  let rows := match jsOrNone c.authorDid with
    | some a => rows.filter (fun r => r.authorDid == a)
    | none => rows
  let rows := match jsOrNone c.cursor with
    | some cur =>
      match parseIsoZ cur with
      | some tc => rows.filter (fun r => r.indexedAt < tc)
      | none => rows.filter (fun _ => false)
    | none => rows
  let rows := sortByRel mRowGe rows
  let rows := match jsNatOpt c.limit with
    | some n => rows.take n
    | none => rows
  rows.map mRecordOfRow

/-- Operation `MongoDBAdapter.posts.findByUri`: `findOne({ uri })`. -/
def mongoFindByUri (s : MState) (uri : String) : Option PostRecord :=
  (s.posts.find? (fun r => r.uri == uri)).map mRecordOfRow

/-- Operation `MongoDBAdapter.posts.deleteByUri`: `deleteOne({ uri })`
(`deletedCount > 0`; `uri` is unique, so at most one document matches). -/
def mongoDeleteByUri (s : MState) (uri : String) : MState × Bool :=
  ({ s with posts := s.posts.filter (fun r => !(r.uri == uri)) },
    s.posts.any (fun r => r.uri == uri))

/-- Operation `MongoDBAdapter.subscriptionState.update`: `replaceOne` with
`upsert: true`. -/
def mongoSubUpdate (s : MState) (service : String) (cursor : Int) : MState :=
  { s with subs := subUpsert s.subs service cursor }

/-! ## Operation sequences over an adapter (for cross-backend equivalence) -/

/-- One write operation of the adapter contract. -/
inductive DbOp where
  | createPost (p : PostInput)
  | deletePostByUri (uri : String)
  | updateSubscriptionState (service : String) (cursor : Int)
deriving DecidableEq, Repr

/-- The timestamps carried by the creates of an operation sequence. -/
def opTimes (ops : List DbOp) : List Nat :=
  ops.filterMap (fun op => match op with
    | .createPost p => some p.indexedAt
    | _ => none)

/-- The post inputs carried by an operation sequence. -/
def opCreates (ops : List DbOp) : List PostInput :=
  ops.filterMap (fun op => match op with
    | .createPost p => some p
    | _ => none)

/-- Apply one operation to the SQLite adapter, recording its logical
outcome. -/
def sqliteStep (s : SState) (op : DbOp) : SState × OpOutcome :=
  match op with
  | .createPost p =>
    match sqliteCreate s p "" with
    | .ok (s', _) => (s', .created)
    | .error .duplicateKey => (s, .duplicate)
  | .deletePostByUri uri =>
    let (s', removed) := sqliteDeleteByUri s uri
    (s', .deleted removed)
  | .updateSubscriptionState service cursor =>
    (sqliteSubUpdate s service cursor, .updatedSub)

/-- Run an operation sequence on the SQLite adapter. -/
def sqliteRun (ops : List DbOp) (s : SState) : SState × List OpOutcome :=
  match ops with
  | [] => (s, [])
  | op :: rest =>
    let (s', o) := sqliteStep s op
    let (s'', os) := sqliteRun rest s'
    (s'', o :: os)

/-- Apply one operation to the PostgreSQL adapter. -/
def pgStep (s : SState) (op : DbOp) : SState × OpOutcome :=
  match op with
  | .createPost p =>
    match pgCreate s p "" with
    | .ok (s', _) => (s', .created)
    | .error .duplicateKey => (s, .duplicate)
  | .deletePostByUri uri =>
    let (s', removed) := pgDeleteByUri s uri
    (s', .deleted removed)
  | .updateSubscriptionState service cursor =>
    (pgSubUpdate s service cursor, .updatedSub)

/-- Run an operation sequence on the PostgreSQL adapter. -/
def pgRun (ops : List DbOp) (s : SState) : SState × List OpOutcome :=
  match ops with
  | [] => (s, [])
  | op :: rest =>
    let (s', o) := pgStep s op
    let (s'', os) := pgRun rest s'
    (s'', o :: os)

/-- Apply one operation to the MongoDB adapter. -/
def mongoStep (s : MState) (op : DbOp) : MState × OpOutcome :=
  match op with
  | .createPost p =>
    match mongoCreate s p "" with
    | .ok (s', _) => (s', .created)
    | .error .duplicateKey => (s, .duplicate)
  | .deletePostByUri uri =>
    let (s', removed) := mongoDeleteByUri s uri
    (s', .deleted removed)
  | .updateSubscriptionState service cursor =>
    (mongoSubUpdate s service cursor, .updatedSub)

/-- Run an operation sequence on the MongoDB adapter. -/
def mongoRun (ops : List DbOp) (s : MState) : MState × List OpOutcome :=
  match ops with
  | [] => (s, [])
  | op :: rest =>
    let (s', o) := mongoStep s op
    let (s'', os) := mongoRun rest s'
    (s'', o :: os)

/-! ## Ingestion pipeline (`FirehoseSubscription.handleEvent`,
`src/subscription.ts`, adapter branch) -/

/-- One create operation extracted from a commit by `getOpsByType`:
`create.record` is carried already serialised (`JSON.stringify` of the
original record — an injective encoding whose exact text the pipeline
stores verbatim). -/
structure CreateOp where
  uri : String
  cid : String
  replyParent : Option String
  replyRoot : Option String
  authorDid : String
  recordJson : String
deriving DecidableEq, Repr

/-- One commit event's post operations: `ops.posts.deletes` (as uris) and
`ops.posts.creates`. -/
structure CommitOps where
  deletes : List String
  creates : List CreateOp
deriving DecidableEq, Repr

/-- The `postsToCreate` mapping of `handleEvent`:
`indexedAt: new Date()` — the wall-clock instant `now`. -/
def inputOfCreate (now : Nat) (c : CreateOp) : PostInput :=
  { uri := c.uri, cid := c.cid, replyParent := c.replyParent,
    replyRoot := c.replyRoot, authorDid := c.authorDid,
    recordJson := c.recordJson, indexedAt := now }

/-- The delete loop of `handleEvent`: one `deleteByUri` per uri, each in
its own `try/catch` (a failure is logged and the loop continues). -/
def applyDeletes (s : SState) (uris : List String) : SState :=
  match uris with
  | [] => s
  | uri :: rest => applyDeletes (sqliteDeleteByUri s uri).1 rest

/-- The create loop of `handleEvent`: one `create` per record, each in
its own `try/catch` — a failed create (in particular a duplicate `uri`)
leaves the store unchanged and the loop continues. -/
def applyCreates (s : SState) (ps : List PostInput) : SState :=
  match ps with
  | [] => s
  | p :: rest =>
    match sqliteCreate s p "" with
    | .ok (s', _) => applyCreates s' rest
    | .error _ => applyCreates s rest

/-- Pipeline entry `FirehoseSubscription.handleEvent` (adapter branch, shown on the
SQLite adapter): map the creates to rows stamped with the current
wall-clock time, then delete loop, then create loop. -/
def handleEvent (evt : CommitOps) (now : Nat) (s : SState) : SState :=
  let postsToDelete := evt.deletes
  let postsToCreate := evt.creates.map (inputOfCreate now)
  applyCreates (applyDeletes s postsToDelete) postsToCreate

/-! ## whats-alf algorithm (`src/algos/whats-alf.ts`)

The handler reads the legacy SQLite database directly (`ctx.db`), whose
`post` table has the same shape as `SRow`. -/

/-- Does a char-list start with the given pattern? -/
def startsList : List Char → List Char → Bool
  | [], _ => true
  | _ :: _, [] => false
  | a :: as, b :: bs => a == b && startsList as bs

/-- Does a char-list contain the given pattern as a contiguous run? -/
def hasSubList (pat : List Char) : List Char → Bool
  | [] => startsList pat []
  | c :: cs => startsList pat (c :: cs) || hasSubList pat cs

/-- JS `String.prototype.includes`. -/
def strIncludes (s pat : String) : Bool := hasSubList pat.data s.data

/-- JS `String.prototype.toLowerCase` (ASCII scope). -/
def strLower (s : String) : String := String.mk (s.data.map Char.toLower)

/-- Parse a JSON string literal with no escape sequences: the chars up to
the closing quote. -/
def jsonStrChars (fuel : Nat) (cs : List Char) : Option (String × List Char) :=
  match fuel, cs with
  | 0, _ => none
  | _, [] => none
  | fuel + 1, c :: rest =>
    if c = '"' then some ("", rest)
    else if c = '\\' then none
    else do
      let (s, rest') ← jsonStrChars fuel rest
      some (String.mk (c :: s.data), rest')

/-- Parse the member list of a flat JSON object of string values,
returning its key/value pairs (the part after the opening brace). -/
def jsonMembers (fuel : Nat) (cs : List Char) :
    Option (List (String × String) × List Char) :=
  match fuel, cs with
  | 0, _ => none
  | _, [] => none
  | fuel + 1, c :: rest =>
    if c = '"' then do
      let (k, rest₁) ← jsonStrChars fuel rest
      match rest₁ with
      | ':' :: '"' :: rest₂ => do
        let (v, rest₃) ← jsonStrChars fuel rest₂
        match rest₃ with
        | ',' :: rest₄ => do
          let (kvs, rest₅) ← jsonMembers fuel rest₄
          some ((k, v) :: kvs, rest₅)
        | '\x7d' :: rest₄ => some ([(k, v)], rest₄)
        | _ => none
      | _ => none
    else none

/-- Model of `JSON.parse(row.recordJson)` followed by reading the `text` property,
for payloads that are flat JSON objects with unescaped string values
(every payload this system's claims mention); anything else is a parse
failure, `none` — which the handler's `catch` turns into exclusion. -/
def jsonTextField (s : String) : Option String :=
  match s.data with
  | '\x7b' :: rest =>
    match jsonMembers (rest.length + 1) rest with
    | some (kvs, []) => (kvs.find? (fun kv => kv.1 == "text")).map (·.2)
    | _ => none
  | _ => none

/-- The whats-alf filter predicate on a row:
`record.text && record.text.toLowerCase().includes('alf')` guarded by the
`try/catch` around `JSON.parse`. -/
def alfPred (r : SRow) : Bool :=
  match jsonTextField r.recordJson with
  | some text => !(text == "") && strIncludes (strLower text) "alf"
  | none => false

/-- The handler's composite ordering:
`.orderBy('indexedAt', 'desc').orderBy('cid', 'desc')`. -/
def wRowGe (a b : SRow) : Bool :=
  !(strLtB a.indexedAt b.indexedAt ||
    (a.indexedAt == b.indexedAt && strLtB a.cid b.cid))

/-- An algorithm's output skeleton: feed item uris and an optional
pagination cursor. -/
structure AlgoOutput where
  cursor : Option String
  feed : List String
deriving DecidableEq, Repr

/-- Cursor rendering `new Date(last.indexedAt).getTime().toString(10)` — the outgoing
cursor derived from a returned row (`"NaN"` for an unparseable stored
string). -/
def rowCursor (r : SRow) : String :=
  match parseIsoZ r.indexedAt with
  | some t => Nat.repr t
  | none => "NaN"

/-- The whats-alf handler, `src/algos/whats-alf.ts`: order by
`(indexedAt desc, cid desc)`; if a cursor is given, parse it with
`parseInt` and filter `indexedAt < new Date(ms).toISOString()` (a
non-numeric cursor makes `toISOString` throw, which the handler
re-throws — `Except.error`); fetch at most `min(limit * 3, 300)` rows;
filter by `alfPred`; truncate to `limit`; the outgoing cursor is the
timestamp of the last *returned* row, if any. -/
def whatsAlfHandler (posts : List SRow) (limit : Nat) (cursor : Option String) :
    Except Unit AlgoOutput :=
  let withCursor : Except Unit (List SRow) :=
    match jsOrNone cursor with
    | some c =>
      match parseDecimal c with
      | some ms => .ok (posts.filter (fun r => strLtB r.indexedAt (isoOfMs ms)))
      | none => .error ()
    | none => .ok posts
  match withCursor with
  | .error e => .error e
  | .ok rows =>
    let fetched := (sortByRel wRowGe rows).take (min (limit * 3) 300)
    let alfPosts := fetched.filter alfPred
    let limitedPosts := alfPosts.take limit
    let feed := limitedPosts.map (fun r => r.uri)
    let outCursor := (limitedPosts.getLast?).map rowCursor
    .ok { cursor := outCursor, feed := feed }

/-- The post-filter, post-truncation row list of the whats-alf handler —
the rows the handler actually returns (used to state the outgoing-cursor
property). -/
def whatsAlfReturnedRows (posts : List SRow) (limit : Nat)
    (cursor : Option String) : List SRow :=
  let rows := match jsOrNone cursor with
    | some c =>
      match parseDecimal c with
      | some ms => posts.filter (fun r => strLtB r.indexedAt (isoOfMs ms))
      | none => []
    | none => posts
  (((sortByRel wRowGe rows).take (min (limit * 3) 300)).filter alfPred).take limit

/-! ## Auxiliary scenario data (used by concrete counterexamples and
witnesses below) -/

/-- A minimal post input: distinct `uri`/`cid`, author `alice`,
timestamp `t`. -/
def mkInput (u c : String) (t : Nat) : PostInput :=
  { uri := u, cid := c, replyParent := none, replyRoot := none,
    authorDid := "did:example:alice", recordJson := "\x7b\x7d", indexedAt := t }

/-- The three-post store of §8.8: an ALF post, an unrelated post, and a
malformed payload. -/
def alfStore : List SRow :=
  [ { uri := "at://did:example:alice/app.bsky.feed.post/1", cid := "c1",
      replyParent := none, replyRoot := none,
      authorDid := "did:example:alice",
      recordJson := "\x7b\"text\":\"I love ALF\"\x7d", indexedAt := isoOfMs 0 },
    { uri := "at://did:example:alice/app.bsky.feed.post/2", cid := "c2",
      replyParent := none, replyRoot := none,
      authorDid := "did:example:alice",
      recordJson := "\x7b\"text\":\"unrelated\"\x7d", indexedAt := isoOfMs 1000 },
    { uri := "at://did:example:alice/app.bsky.feed.post/3", cid := "c3",
      replyParent := none, replyRoot := none,
      authorDid := "did:example:alice",
      recordJson := "not json", indexedAt := isoOfMs 2000 } ]

/-! ## Hypothesis packaging for the cross-backend equivalence -/

/-- Every create timestamp of the sequence round-trips through the ISO
serialisation, and the serialisation preserves the order of every pair of
them under varchar comparison.  True of all real timestamps; packaged as
a decidable side condition because the model's calendar arithmetic is
executable, not axiomatised. -/
def timesOkB (ops : List DbOp) : Bool :=
  (opTimes ops).all (fun t =>
    (parseIsoZ (isoOfMs t) == some t) &&
    (opTimes ops).all (fun t' =>
      strLtB (isoOfMs t) (isoOfMs t') == decide (t < t')))

/-- No create carries an empty-string `replyParent`/`replyRoot` (the
SQLite/PostgreSQL write path coerces `""` to NULL, MongoDB stores it
verbatim). -/
def repliesOkB (ops : List DbOp) : Bool :=
  (opCreates ops).all (fun p =>
    !(p.replyParent == some "") && !(p.replyRoot == some ""))

/-- The query cursor, when truthy, is a canonical ISO timestamp (so the
MongoDB date-parse succeeds) that compares against every stored
timestamp's serialisation the same way the parsed value compares
numerically. -/
def cursorOkB (ops : List DbOp) (cur : Option String) : Bool :=
  match jsOrNone cur with
  | none => true
  | some c =>
    match parseIsoZ c with
    | none => false
    | some tc =>
      (opTimes ops).all (fun t => strLtB (isoOfMs t) c == decide (t < tc))

/-- The SQLite/PostgreSQL image of a MongoDB document: same columns, the
timestamp serialised. -/
def srowOfM (m : MRow) : SRow :=
  { uri := m.uri, cid := m.cid, replyParent := m.replyParent,
    replyRoot := m.replyRoot, authorDid := m.authorDid,
    recordJson := m.recordJson, indexedAt := isoOfMs m.indexedAt }

/-- A concrete operation sequence exercising create, duplicate create,
effective delete, no-op delete and a subscription upsert. -/
def c1ops : List DbOp :=
  [ .createPost (mkInput "at://did:example:alice/app.bsky.feed.post/1" "c1" 1000),
    .createPost (mkInput "at://did:example:alice/app.bsky.feed.post/2" "c2" 2000),
    .createPost (mkInput "at://did:example:alice/app.bsky.feed.post/1" "c9" 3000),
    .deletePostByUri "at://did:example:alice/app.bsky.feed.post/2",
    .deletePostByUri "at://did:example:alice/app.bsky.feed.post/missing",
    .updateSubscriptionState "wss://bsky.network" 42 ]

/-- A concrete criteria triple with author filter, limit and an ISO
cursor. -/
def c1crit : FindCriteria :=
  { authorDid := some "did:example:alice", limit := some 1,
    cursor := some (isoOfMs 2500) }

/-- Posts P1–P3 of the §8.4 scenario (strictly decreasing timestamps). -/
def c3l1 : List PostInput :=
  [ mkInput "at://did:example:alice/app.bsky.feed.post/1" "k1" 10000,
    mkInput "at://did:example:alice/app.bsky.feed.post/2" "k2" 9000,
    mkInput "at://did:example:alice/app.bsky.feed.post/3" "k3" 8000 ]

/-- Post P4 of the §8.4 scenario — the first page's last row. -/
def c3p4 : PostInput :=
  mkInput "at://did:example:alice/app.bsky.feed.post/4" "k4" 7000

/-- Posts P5–P10 of the §8.4 scenario. -/
def c3l2 : List PostInput :=
  [ mkInput "at://did:example:alice/app.bsky.feed.post/5" "k5" 6000,
    mkInput "at://did:example:alice/app.bsky.feed.post/6" "k6" 5000,
    mkInput "at://did:example:alice/app.bsky.feed.post/7" "k7" 4000,
    mkInput "at://did:example:alice/app.bsky.feed.post/8" "k8" 3000,
    mkInput "at://did:example:alice/app.bsky.feed.post/9" "k9" 2000,
    mkInput "at://did:example:alice/app.bsky.feed.post/10" "k10" 1000 ]

/-- A concrete post exercising every field, reply references included. -/
def c4post : PostInput :=
  { uri := "at://did:example:alice/app.bsky.feed.post/r1"
    cid := "bafyreic4"
    replyParent := some "at://did:example:bob/app.bsky.feed.post/p"
    replyRoot := some "at://did:example:bob/app.bsky.feed.post/q"
    authorDid := "did:example:alice"
    recordJson := "\x7b\"text\":\"hi\"\x7d"
    indexedAt := 123456 }

/-- A minimal firehose create operation. -/
def mkCreate (u c : String) : CreateOp :=
  { uri := u, cid := c, replyParent := none, replyRoot := none,
    authorDid := "did:example:alice", recordJson := "\x7b\x7d" }

/-! # Theorems -/

/-! ## Basic lemmas: strings, truthiness, sorting -/

theorem strLtAux_irrefl (l : List Char) : strLtAux l l = false := by
  induction l with
  | nil => rfl
  | cons a as ih => simp [strLtAux, ih]

theorem strLtB_irrefl (s : String) : strLtB s s = false :=
  strLtAux_irrefl s.data

theorem strLtAux_asymm {a b : List Char} (h : strLtAux a b = true) :
    strLtAux b a = false := by
  induction a generalizing b with
  | nil =>
    cases b with
    | nil => simp [strLtAux] at h
    | cons x xs => simp [strLtAux]
  | cons x xs ih =>
    cases b with
    | nil => simp [strLtAux] at h
    | cons y ys =>
      simp only [strLtAux] at h ⊢
      rcases Nat.lt_trichotomy x.toNat y.toNat with h1 | h1 | h1
      · simp [h1, Nat.lt_asymm h1]
      · simp [h1, Nat.lt_irrefl] at h ⊢
        exact ih h
      · simp [h1, Nat.lt_asymm h1] at h

theorem strLtB_asymm {a b : String} (h : strLtB a b = true) :
    strLtB b a = false :=
  strLtAux_asymm h

theorem jsOrNone_eq_self {x : Option String} (h : x ≠ some "") :
    jsOrNone x = x := by
  cases x with
  | none => rfl
  | some s =>
    have hs : s ≠ "" := fun hs => h (by rw [hs])
    simp [jsOrNone, hs]

theorem mem_insertByRel {le : α → α → Bool} {a x : α} {l : List α} :
    x ∈ insertByRel le a l ↔ x = a ∨ x ∈ l := by
  induction l with
  | nil => simp [insertByRel]
  | cons b bs ih =>
    simp only [insertByRel]
    cases h : le a b with
    | true => simp [List.mem_cons, or_left_comm]
    | false => simp [h, ih, List.mem_cons, or_left_comm]

theorem mem_sortByRel {le : α → α → Bool} {x : α} {l : List α} :
    x ∈ sortByRel le l ↔ x ∈ l := by
  induction l with
  | nil => simp [sortByRel]
  | cons a as ih => simp [sortByRel, mem_insertByRel, ih]

theorem insertByRel_of_le {le : α → α → Bool} {a : α} {l : List α}
    (h : ∀ b ∈ l.head?, le a b = true) :
    insertByRel le a l = a :: l := by
  cases l with
  | nil => rfl
  | cons b bs => simp [insertByRel, h b rfl]

/-- A list already ordered by `le` between neighbours is left unchanged
by the sort. -/
theorem sortByRel_of_chain {le : α → α → Bool} {l : List α}
    (h : List.Chain' (fun a b => le a b = true) l) :
    sortByRel le l = l := by
  induction l with
  | nil => rfl
  | cons a as ih =>
    have has : sortByRel le as = as := ih h.tail
    simp only [sortByRel, has]
    apply insertByRel_of_le
    intro b hb
    cases as with
    | nil => simp at hb
    | cons c cs =>
      simp at hb
      subst hb
      exact List.chain'_cons.mp h |>.1

/-- The sort commutes with a row mapping that preserves the order of the
list's own members. -/
theorem insertByRel_map {le : α → α → Bool} {leb : β → β → Bool}
    (f : α → β) {a : α} {l : List α}
    (hf : ∀ x ∈ l, leb (f a) (f x) = le a x) :
    insertByRel leb (f a) (l.map f) = (insertByRel le a l).map f := by
  induction l with
  | nil => rfl
  | cons b bs ih =>
    simp only [List.map_cons, insertByRel, hf b (by simp)]
    by_cases h : le a b
    · simp [h]
    · simp only [h, if_neg]
      rw [ih (fun x hx => hf x (by simp [hx]))]
      simp

theorem sortByRel_map {le : α → α → Bool} {leb : β → β → Bool}
    (f : α → β) {l : List α}
    (hf : ∀ x ∈ l, ∀ y ∈ l, leb (f x) (f y) = le x y) :
    sortByRel leb (l.map f) = (sortByRel le l).map f := by
  induction l with
  | nil => rfl
  | cons a as ih =>
    simp only [List.map_cons, sortByRel]
    rw [ih (fun x hx y hy => hf x (by simp [hx]) y (by simp [hy]))]
    exact insertByRel_map f (fun x hx =>
      hf a (by simp) x (by simp [mem_sortByRel.mp hx]))

/-- Lemma: `any` over a mapped list (a heterogeneous version of
`List.any_map`). -/
theorem any_map_het (f : α → β) (p : β → Bool) (l : List α) :
    (l.map f).any p = l.any (fun a => p (f a)) := by
  induction l with
  | nil => rfl
  | cons a as ih => simp [ih]

/-! ## PostgreSQL and SQLite share one varchar-level behaviour -/

theorem pgFindMany_eq_sqlite (s : SState) (c : FindCriteria) :
    pgFindMany s c = sqliteFindMany s c := rfl

theorem pgStep_eq_sqlite (s : SState) (op : DbOp) :
    pgStep s op = sqliteStep s op := rfl

theorem pgRun_eq_sqlite (ops : List DbOp) (s : SState) :
    pgRun ops s = sqliteRun ops s := by
  induction ops generalizing s with
  | nil => rfl
  | cons op rest ih =>
    simp only [pgRun, sqliteRun, pgStep_eq_sqlite, ih]

/-! ## MongoDB run: invariants of the document store -/

/-- The create timestamps are exactly the timestamps of the create
inputs. -/
theorem opTimes_eq_map (ops : List DbOp) :
    opTimes ops = (opCreates ops).map (fun p => p.indexedAt) := by
  induction ops with
  | nil => rfl
  | cons op rest ih =>
    cases op <;> simp [opTimes, opCreates, List.filterMap_cons] at ih ⊢ <;>
      exact ih

/-- A create of the tail of a sequence is a create of the sequence. -/
theorem opCreates_cons (op : DbOp) (rest : List DbOp) {p : PostInput}
    (hp : p ∈ opCreates rest) : p ∈ opCreates (op :: rest) := by
  cases op with
  | createPost q => simp [opCreates, List.filterMap_cons] at hp ⊢; tauto
  | deletePostByUri u => simpa [opCreates, List.filterMap_cons] using hp
  | updateSubscriptionState sv c =>
    simpa [opCreates, List.filterMap_cons] using hp

/-- The head create of a sequence is among its creates. -/
theorem opCreates_head (p : PostInput) (rest : List DbOp) :
    p ∈ opCreates (DbOp.createPost p :: rest) := by
  simp [opCreates, List.filterMap_cons]

/-- Any property of documents that holds for every create of the
sequence and every initial document holds for every document of the
final store. -/
theorem mongoRun_posts_pred (P : MRow → Prop) (ops : List DbOp) :
    ∀ (s : MState), (∀ p ∈ opCreates ops, P (mongoRowOf p)) →
    (∀ m ∈ s.posts, P m) → ∀ m ∈ (mongoRun ops s).1.posts, P m := by
  induction ops with
  | nil => intro s _ hs; exact hs
  | cons op rest ih =>
    intro s hcre hs
    have hcre' : ∀ p ∈ opCreates rest, P (mongoRowOf p) :=
      fun p hp => hcre p (opCreates_cons op rest hp)
    cases op with
    | createPost p =>
      simp only [mongoRun, mongoStep, mongoCreate]
      by_cases hdup : s.posts.any (fun r => r.uri == p.uri)
      · simp only [hdup, if_true]
        exact ih _ hcre' hs
      · simp only [hdup, if_false]
        apply ih _ hcre'
        intro m hm
        simp at hm
        rcases hm with hm | hm
        · exact hs m hm
        · rw [hm]
          exact hcre p (opCreates_head p rest)
    | deletePostByUri uri =>
      simp only [mongoRun, mongoStep, mongoDeleteByUri]
      apply ih _ hcre'
      intro m hm
      exact hs m (List.filter_subset' _ hm)
    | updateSubscriptionState service cursor =>
      simp only [mongoRun, mongoStep, mongoSubUpdate]
      exact ih _ hcre' hs

/-- Lemma: `srowOfM` and the SQLite write path agree on a create whose optional
reply fields are not empty strings. -/
theorem sqliteRowOf_eq_srowOfM {p : PostInput}
    (h1 : p.replyParent ≠ some "") (h2 : p.replyRoot ≠ some "") :
    sqliteRowOf p = srowOfM (mongoRowOf p) := by
  simp [sqliteRowOf, srowOfM, mongoRowOf, jsOrNone_eq_self h1,
    jsOrNone_eq_self h2]

/-- Simulation of the write path: started from corresponding states, the
SQLite and MongoDB runs stay in correspondence and produce the same
logical outcomes. -/
theorem run_sim (ops : List DbOp) :
    ∀ (ss : SState) (ms : MState),
    (∀ p ∈ opCreates ops, p.replyParent ≠ some "" ∧ p.replyRoot ≠ some "") →
    ss.posts = ms.posts.map srowOfM → ss.subs = ms.subs →
    (sqliteRun ops ss).1.posts = (mongoRun ops ms).1.posts.map srowOfM ∧
    (sqliteRun ops ss).1.subs = (mongoRun ops ms).1.subs ∧
    (sqliteRun ops ss).2 = (mongoRun ops ms).2 := by
  induction ops with
  | nil => intro ss ms _ hp hs; exact ⟨hp, hs, rfl⟩
  | cons op rest ih =>
    intro ss ms hrep hp hs
    have hrep' : ∀ p ∈ opCreates rest,
        p.replyParent ≠ some "" ∧ p.replyRoot ≠ some "" :=
      fun p hmem => hrep p (opCreates_cons op rest hmem)
    cases op with
    | createPost p =>
      have hrp : p.replyParent ≠ some "" ∧ p.replyRoot ≠ some "" :=
        hrep p (opCreates_head p rest)
      have hany : ss.posts.any (fun r => r.uri == p.uri)
          = ms.posts.any (fun r => r.uri == p.uri) := by
        rw [hp, any_map_het]
        rfl
      simp only [sqliteRun, mongoRun, sqliteStep, mongoStep, sqliteCreate,
        mongoCreate, hany]
      by_cases hdup : ms.posts.any (fun r => r.uri == p.uri)
      · simp only [hdup, if_true]
        have := ih ss ms hrep' hp hs
        rcases this with ⟨h1, h2, h3⟩
        exact ⟨h1, h2, by simp [h3]⟩
      · simp only [hdup, if_false]
        have hp' : ss.posts ++ [sqliteRowOf p]
            = (ms.posts ++ [mongoRowOf p]).map srowOfM := by
          rw [List.map_append, hp, sqliteRowOf_eq_srowOfM hrp.1 hrp.2]
          rfl
        have := ih { ss with posts := ss.posts ++ [sqliteRowOf p] }
          { ms with posts := ms.posts ++ [mongoRowOf p] } hrep' hp' hs
        rcases this with ⟨h1, h2, h3⟩
        exact ⟨h1, h2, by simp [h3]⟩
    | deletePostByUri uri =>
      have hfil : ss.posts.filter (fun r => !(r.uri == uri))
          = (ms.posts.filter (fun r => !(r.uri == uri))).map srowOfM := by
        rw [hp, List.filter_map]
        rfl
      have hany : ss.posts.any (fun r => r.uri == uri)
          = ms.posts.any (fun r => r.uri == uri) := by
        rw [hp, any_map_het]
        rfl
      simp only [sqliteRun, mongoRun, sqliteStep, mongoStep,
        sqliteDeleteByUri, mongoDeleteByUri]
      have := ih { ss with posts := ss.posts.filter (fun r => !(r.uri == uri)) }
        { ms with posts := ms.posts.filter (fun r => !(r.uri == uri)) }
        hrep' hfil hs
      rcases this with ⟨h1, h2, h3⟩
      exact ⟨h1, h2, by simp [h3, hany]⟩
    | updateSubscriptionState service cursor =>
      simp only [sqliteRun, mongoRun, sqliteStep, mongoStep,
        sqliteSubUpdate, mongoSubUpdate]
      have := ih { ss with subs := subUpsert ss.subs service cursor }
        { ms with subs := subUpsert ms.subs service cursor }
        hrep' hp (by rw [hs])
      rcases this with ⟨h1, h2, h3⟩
      exact ⟨h1, h2, by simp [h3]⟩

/-- Lemma: `filter` over a mapped list, stated without function composition. -/
theorem filter_map_het (f : α → β) (p : β → Bool) (l : List α) :
    (l.map f).filter p = (l.filter (fun a => p (f a))).map f := by
  induction l with
  | nil => rfl
  | cons a as ih =>
    simp only [List.map_cons, List.filter_cons]
    cases p (f a) with
    | true => simp [ih]
    | false => simp [ih]

/-! ## The sort and record stages of the read path -/

/-- The sort stage commutes with the document-to-row mapping whenever
serialisation preserves the order of the documents at hand. -/
theorem sortMap_eq {l : List MRow}
    (hmono : ∀ m ∈ l, ∀ m' ∈ l, strLtB (isoOfMs m.indexedAt)
      (isoOfMs m'.indexedAt) = decide (m.indexedAt < m'.indexedAt)) :
    sortByRel sRowGe (l.map srowOfM) = (sortByRel mRowGe l).map srowOfM := by
  apply sortByRel_map
  intro x hx y hy
  show (!strLtB (isoOfMs x.indexedAt) (isoOfMs y.indexedAt)) = mRowGe x y
  rw [hmono x hx y hy]
  rfl

/-- The record stage: the SQLite row mapping composed with the SQLite
read mapping agrees with the MongoDB read mapping on well-formed
documents. -/
theorem recordsMap_eq {l : List MRow}
    (hgood : ∀ m ∈ l, parseIsoZ (isoOfMs m.indexedAt) = some m.indexedAt)
    (hrep : ∀ m ∈ l, m.replyParent ≠ some "" ∧ m.replyRoot ≠ some "") :
    (l.map srowOfM).map sRecordOfRow = l.map mRecordOfRow := by
  rw [List.map_map]
  apply List.map_congr_left
  intro m hm
  obtain ⟨h1, h2⟩ := hrep m hm
  simp [Function.comp, sRecordOfRow, mRecordOfRow, srowOfM,
    jsOrNone_eq_self h1, jsOrNone_eq_self h2, hgood m hm]

/-- Read-path equivalence: on corresponding stores whose documents have
round-tripping, order-preserving timestamps and no empty-string reply
fields, and with a cursor (if truthy) that is a well-behaved ISO
timestamp, `findMany` returns the same records on SQLite and MongoDB. -/
theorem findMany_equiv (ss : SState) (ms : MState) (c : FindCriteria)
    (hposts : ss.posts = ms.posts.map srowOfM)
    (hgood : ∀ m ∈ ms.posts, parseIsoZ (isoOfMs m.indexedAt) = some m.indexedAt)
    (hrep : ∀ m ∈ ms.posts, m.replyParent ≠ some "" ∧ m.replyRoot ≠ some "")
    (hmono : ∀ m ∈ ms.posts, ∀ m' ∈ ms.posts,
      strLtB (isoOfMs m.indexedAt) (isoOfMs m'.indexedAt)
        = decide (m.indexedAt < m'.indexedAt))
    (hcur : ∀ cs, jsOrNone c.cursor = some cs →
      ∃ tc, parseIsoZ cs = some tc ∧
        ∀ m ∈ ms.posts, strLtB (isoOfMs m.indexedAt) cs
          = decide (m.indexedAt < tc)) :
    sqliteFindMany ss c = mongoFindMany ms c := by
  -- reduce both sides to a pipeline over the document list `lA`
  -- (author-filtered) and then `lC` (cursor-filtered)
  simp only [sqliteFindMany, mongoFindMany, hposts]
  have finish : ∀ (l : List MRow), (∀ m ∈ l, m ∈ ms.posts) →
      (match jsNatOpt c.limit with
        | some n => (sortByRel sRowGe (l.map srowOfM)).take n
        | none => sortByRel sRowGe (l.map srowOfM)).map sRecordOfRow
      = (match jsNatOpt c.limit with
        | some n => (sortByRel mRowGe l).take n
        | none => sortByRel mRowGe l).map mRecordOfRow := by
    intro l hl
    have hm : ∀ m ∈ sortByRel mRowGe l, m ∈ ms.posts :=
      fun m hm => hl m (mem_sortByRel.mp hm)
    have hs := sortMap_eq (fun x hx y hy => hmono x (hl x hx) y (hl y hy))
    cases jsNatOpt c.limit with
    | none =>
      simp only []
      rw [hs]
      exact recordsMap_eq (fun m hmem => hgood m (hm m hmem))
        (fun m hmem => hrep m (hm m hmem))
    | some n =>
      simp only []
      rw [hs, ← List.map_take srowOfM]
      have ht : ∀ m ∈ (sortByRel mRowGe l).take n, m ∈ ms.posts :=
        fun m hmem => hm m (List.take_subset n _ hmem)
      exact recordsMap_eq (fun m hmem => hgood m (ht m hmem))
        (fun m hmem => hrep m (ht m hmem))
  cases hA : jsOrNone c.authorDid with
  | none =>
    cases hC : jsOrNone c.cursor with
    | none => exact finish ms.posts (fun m hm => hm)
    | some cs =>
      obtain ⟨tc, htc, hctc⟩ := hcur cs hC
      simp only [htc]
      rw [filter_map_het,
        List.filter_congr
          (p := fun m => strLtB (srowOfM m).indexedAt cs)
          (q := fun m => decide (m.indexedAt < tc))
          (fun m hm => hctc m hm)]
      exact finish _ (fun m hm => List.filter_subset' _ hm)
  | some a =>
    cases hC : jsOrNone c.cursor with
    | none =>
      simp only []
      rw [filter_map_het]
      exact finish _ (fun m hm => List.filter_subset' _ hm)
    | some cs =>
      obtain ⟨tc, htc, hctc⟩ := hcur cs hC
      simp only [htc]
      rw [filter_map_het, filter_map_het,
        List.filter_congr
          (p := fun m => strLtB (srowOfM m).indexedAt cs)
          (q := fun m => decide (m.indexedAt < tc))
          (fun m hm => hctc m (List.filter_subset' _ hm))]
      exact finish _
        (fun m hm => List.filter_subset' _ (List.filter_subset' _ hm))

/-! ## Claim C1 — cross-backend equivalence -/

/-- C1 (corrected): full cross-backend equivalence fails as claimed —
two divergences separate MongoDB from SQLite/PostgreSQL.  Witnessed
here: a `findPosts` cursor that is not a canonical ISO timestamp
(`"zzz"`) is compared lexicographically by the varchar backends
(matching every stored row) but date-parsed by MongoDB into an Invalid
Date (matching none), so the same one-create history answers the same
query differently. -/
theorem c1_crossBackendEquivalence_counterexample :
    sqliteFindMany
        (sqliteRun [DbOp.createPost
          (mkInput "at://did:example:alice/app.bsky.feed.post/1" "c1" 0)]
          SState.empty).1
        { authorDid := none, limit := none, cursor := some "zzz" }
      ≠ mongoFindMany
        (mongoRun [DbOp.createPost
          (mkInput "at://did:example:alice/app.bsky.feed.post/1" "c1" 0)]
          MState.empty).1
        { authorDid := none, limit := none, cursor := some "zzz" } := by
  decide

/-- C1 (amended): for every operation sequence and criteria triple in
which the creates carry no empty-string reply fields (`repliesOkB`), the
create timestamps are pairwise distinct and serialise
order-preservingly and round-trip (`timesOkB` — the serialisation
conditions hold of every real timestamp), and the cursor, if truthy, is
a canonical ISO timestamp behaving consistently under both varchar
comparison and date comparison (`cursorOkB`), the three backends agree:
same per-operation uniqueness/deletion outcomes, same `findPosts` pages
and records, same subscription state.  The distinctness proviso is
needed because no adapter has a tie-break (see C2): on equal `indexedAt`
each engine's `ORDER BY` order is unspecified, so cross-backend page
identity is only a property of the program when every reachable store —
whose rows all come from creates of the sequence — has pairwise
distinct `indexedAt`, making the descending order unique. -/
theorem c1_crossBackendEquivalence (ops : List DbOp) (crit : FindCriteria)
    (hdist : (opTimes ops).Nodup)
    (ht : timesOkB ops = true) (hr : repliesOkB ops = true)
    (hc : cursorOkB ops crit.cursor = true) :
    (sqliteRun ops SState.empty).2 = (mongoRun ops MState.empty).2 ∧
    pgRun ops SState.empty = sqliteRun ops SState.empty ∧
    sqliteFindMany (sqliteRun ops SState.empty).1 crit
      = mongoFindMany (mongoRun ops MState.empty).1 crit ∧
    pgFindMany (pgRun ops SState.empty).1 crit
      = sqliteFindMany (sqliteRun ops SState.empty).1 crit ∧
    (sqliteRun ops SState.empty).1.subs = (mongoRun ops MState.empty).1.subs := by
  have hgood : ∀ t ∈ opTimes ops, parseIsoZ (isoOfMs t) = some t := by
    intro t htm
    simp only [timesOkB, List.all_eq_true, Bool.and_eq_true, beq_iff_eq] at ht
    exact (ht t htm).1
  have hmono : ∀ t ∈ opTimes ops, ∀ t' ∈ opTimes ops,
      strLtB (isoOfMs t) (isoOfMs t') = decide (t < t') := by
    intro t htm t' htm'
    simp only [timesOkB, List.all_eq_true, Bool.and_eq_true, beq_iff_eq] at ht
    exact (ht t htm).2 t' htm'
  have hrep : ∀ p ∈ opCreates ops,
      p.replyParent ≠ some "" ∧ p.replyRoot ≠ some "" := by
    intro p hp
    simp only [repliesOkB, List.all_eq_true, Bool.and_eq_true,
      Bool.not_eq_true', beq_eq_false_iff_ne] at hr
    exact hr p hp
  obtain ⟨hposts, hsubs, houtc⟩ :=
    run_sim ops SState.empty MState.empty hrep rfl rfl
  have hwf : ∀ m ∈ (mongoRun ops MState.empty).1.posts,
      m.indexedAt ∈ opTimes ops ∧ m.replyParent ≠ some ""
        ∧ m.replyRoot ≠ some "" := by
    apply mongoRun_posts_pred (fun m => m.indexedAt ∈ opTimes ops ∧
      m.replyParent ≠ some "" ∧ m.replyRoot ≠ some "") ops MState.empty
    · intro p hp
      refine ⟨?_, (hrep p hp).1, (hrep p hp).2⟩
      rw [opTimes_eq_map]
      exact List.mem_map_of_mem _ hp
    · intro m hm
      simp [MState.empty] at hm
  have hfind := findMany_equiv (sqliteRun ops SState.empty).1
      (mongoRun ops MState.empty).1 crit hposts
      (fun m hm => hgood _ (hwf m hm).1)
      (fun m hm => ⟨(hwf m hm).2.1, (hwf m hm).2.2⟩)
      (fun m hm m' hm' => hmono _ (hwf m hm).1 _ (hwf m' hm').1)
      (by
        intro cs hcs
        simp only [cursorOkB, hcs] at hc
        cases hp : parseIsoZ cs with
        | none => simp [hp] at hc
        | some tc =>
          refine ⟨tc, rfl, ?_⟩
          simp only [hp, List.all_eq_true, beq_iff_eq] at hc
          intro m hm
          exact hc _ (hwf m hm).1)
  refine ⟨houtc, pgRun_eq_sqlite ops SState.empty, hfind, ?_, hsubs⟩
  rw [pgRun_eq_sqlite ops SState.empty]
  exact pgFindMany_eq_sqlite _ _

/-- C1 witness: the amended-claim hypotheses are satisfiable — a
concrete six-operation history with an author filter, limit 1 and an
ISO cursor passes them and the equivalence follows. -/
theorem c1_crossBackendEquivalence_witness :
    ((opTimes c1ops).Nodup ∧ timesOkB c1ops = true ∧
      repliesOkB c1ops = true ∧ cursorOkB c1ops c1crit.cursor = true) ∧
    ((sqliteRun c1ops SState.empty).2 = (mongoRun c1ops MState.empty).2 ∧
    pgRun c1ops SState.empty = sqliteRun c1ops SState.empty ∧
    sqliteFindMany (sqliteRun c1ops SState.empty).1 c1crit
      = mongoFindMany (mongoRun c1ops MState.empty).1 c1crit ∧
    pgFindMany (pgRun c1ops SState.empty).1 c1crit
      = sqliteFindMany (sqliteRun c1ops SState.empty).1 c1crit ∧
    (sqliteRun c1ops SState.empty).1.subs
      = (mongoRun c1ops MState.empty).1.subs) :=
  ⟨⟨by decide, by decide, by decide, by decide⟩,
    c1_crossBackendEquivalence c1ops c1crit (by decide) (by decide)
      (by decide) (by decide)⟩

/-! ## Claim C2 — tie-break stability -/

/-- The ISO serialisation is never the empty string. -/
theorem isoOfMs_ne_empty (t : Nat) : isoOfMs t ≠ "" := by
  intro h
  have hl : (isoOfMs t).length = 0 := by rw [h]; rfl
  simp only [isoOfMs, String.length_append] at hl
  have hz : "Z".length = 1 := rfl
  omega

/-- Reduction lemma: an absent criteria field is falsy. -/
theorem jsOrNone_none : jsOrNone none = none := rfl

/-- C2 (corrected): with two posts of identical `indexedAt` (time 0) and
different `uri`, two `limit:1` calls with the cursor taken from the
first page do NOT return each post exactly once: the second post appears
in neither the first page nor the second — the claimed `uri` tie-break
does not exist in any adapter, and the exclusive `indexedAt < cursor`
bound discards the remaining tied post. -/
theorem c2_tieBreak_counterexample :
    (sRecordOfRow (sqliteRowOf
        (mkInput "at://did:example:alice/app.bsky.feed.post/2" "c2" 0))
      ∉ sqliteFindMany
        ⟨[sqliteRowOf
            (mkInput "at://did:example:alice/app.bsky.feed.post/1" "c1" 0),
          sqliteRowOf
            (mkInput "at://did:example:alice/app.bsky.feed.post/2" "c2" 0)], []⟩
        { authorDid := none, limit := some 1, cursor := none }) ∧
    (sRecordOfRow (sqliteRowOf
        (mkInput "at://did:example:alice/app.bsky.feed.post/2" "c2" 0))
      ∉ sqliteFindMany
        ⟨[sqliteRowOf
            (mkInput "at://did:example:alice/app.bsky.feed.post/1" "c1" 0),
          sqliteRowOf
            (mkInput "at://did:example:alice/app.bsky.feed.post/2" "c2" 0)], []⟩
        { authorDid := none, limit := some 1, cursor := some (isoOfMs 0) }) := by
  decide

/-- C2 (amended): the adapters order by `indexedAt` alone, with no `uri`
tie-break; for any store of exactly two rows with identical `indexedAt`
(truthy) and different `uri`, a `limit:1` call returns one of the two
(one record, not both), and the follow-up call whose cursor is the first
page's `indexedAt` returns the empty page — so across the two calls
exactly one of the two tied posts is ever returned and the other is
skipped.  PostgreSQL behaves identically to SQLite. -/
theorem c2_tieBreak_amended (ra rb : SRow)
    (heq : ra.indexedAt = rb.indexedAt)
    (hne : ra.uri ≠ rb.uri)
    (hcne : ra.indexedAt ≠ "") :
    (sqliteFindMany ⟨[ra, rb], []⟩
        { authorDid := none, limit := some 1, cursor := none }
      = [sRecordOfRow ra] ∨
     sqliteFindMany ⟨[ra, rb], []⟩
        { authorDid := none, limit := some 1, cursor := none }
      = [sRecordOfRow rb]) ∧
    sRecordOfRow ra ≠ sRecordOfRow rb ∧
    sqliteFindMany ⟨[ra, rb], []⟩
        { authorDid := none, limit := some 1,
          cursor := some ra.indexedAt } = [] ∧
    (∀ c : FindCriteria,
      pgFindMany ⟨[ra, rb], []⟩ c = sqliteFindMany ⟨[ra, rb], []⟩ c) := by
  have hge : sRowGe ra rb = true := by
    simp [sRowGe, heq, strLtB_irrefl]
  have hc2 : jsOrNone (some ra.indexedAt) = some ra.indexedAt :=
    jsOrNone_eq_self (fun h => hcne (by injection h))
  have hc2' : jsOrNone (some rb.indexedAt) = some rb.indexedAt := by
    rw [← heq]
    exact hc2
  refine ⟨Or.inl ?_, ?_, ?_, fun c => pgFindMany_eq_sqlite _ c⟩
  · simp [sqliteFindMany, jsOrNone_none, jsNatOpt, sortByRel, insertByRel,
      hge]
  · intro h
    exact hne (congrArg PostRecord.uri h)
  · simp [sqliteFindMany, jsOrNone_none, jsNatOpt, hc2, hc2', heq,
      strLtB_irrefl, sortByRel]

/-- C2 witness: two concrete rows with equal timestamps and distinct
uris satisfy the amended claim's hypotheses. -/
theorem c2_tieBreak_amended_witness :
    ((sqliteRowOf (mkInput "at://did:example:alice/app.bsky.feed.post/1" "c1" 0)).indexedAt
      = (sqliteRowOf (mkInput "at://did:example:alice/app.bsky.feed.post/2" "c2" 0)).indexedAt ∧
    (sqliteRowOf (mkInput "at://did:example:alice/app.bsky.feed.post/1" "c1" 0)).uri
      ≠ (sqliteRowOf (mkInput "at://did:example:alice/app.bsky.feed.post/2" "c2" 0)).uri ∧
    (sqliteRowOf (mkInput "at://did:example:alice/app.bsky.feed.post/1" "c1" 0)).indexedAt ≠ "") ∧
    ((sqliteFindMany ⟨[sqliteRowOf (mkInput "at://did:example:alice/app.bsky.feed.post/1" "c1" 0),
        sqliteRowOf (mkInput "at://did:example:alice/app.bsky.feed.post/2" "c2" 0)], []⟩
        { authorDid := none, limit := some 1, cursor := none }
      = [sRecordOfRow (sqliteRowOf (mkInput "at://did:example:alice/app.bsky.feed.post/1" "c1" 0))] ∨
     sqliteFindMany ⟨[sqliteRowOf (mkInput "at://did:example:alice/app.bsky.feed.post/1" "c1" 0),
        sqliteRowOf (mkInput "at://did:example:alice/app.bsky.feed.post/2" "c2" 0)], []⟩
        { authorDid := none, limit := some 1, cursor := none }
      = [sRecordOfRow (sqliteRowOf (mkInput "at://did:example:alice/app.bsky.feed.post/2" "c2" 0))]) ∧
    sRecordOfRow (sqliteRowOf (mkInput "at://did:example:alice/app.bsky.feed.post/1" "c1" 0))
      ≠ sRecordOfRow (sqliteRowOf (mkInput "at://did:example:alice/app.bsky.feed.post/2" "c2" 0)) ∧
    sqliteFindMany ⟨[sqliteRowOf (mkInput "at://did:example:alice/app.bsky.feed.post/1" "c1" 0),
        sqliteRowOf (mkInput "at://did:example:alice/app.bsky.feed.post/2" "c2" 0)], []⟩
        { authorDid := none, limit := some 1,
          cursor := some (sqliteRowOf
            (mkInput "at://did:example:alice/app.bsky.feed.post/1" "c1" 0)).indexedAt } = [] ∧
    (∀ c : FindCriteria,
      pgFindMany ⟨[sqliteRowOf (mkInput "at://did:example:alice/app.bsky.feed.post/1" "c1" 0),
          sqliteRowOf (mkInput "at://did:example:alice/app.bsky.feed.post/2" "c2" 0)], []⟩ c
        = sqliteFindMany ⟨[sqliteRowOf (mkInput "at://did:example:alice/app.bsky.feed.post/1" "c1" 0),
            sqliteRowOf (mkInput "at://did:example:alice/app.bsky.feed.post/2" "c2" 0)], []⟩ c)) :=
  ⟨⟨by decide, by decide, by decide⟩,
    c2_tieBreak_amended _ _ (by decide) (by decide) (by decide)⟩

/-! ## Claim C3 — pagination determinism with an exclusive cursor -/

/-- A list pairwise ordered by `le` is left unchanged by the sort. -/
theorem sortByRel_of_pairwise {le : α → α → Bool} {l : List α}
    (h : l.Pairwise (fun a b => le a b = true)) : sortByRel le l = l :=
  sortByRel_of_chain h.chain'

/-- Double map, stated without function composition. -/
theorem map_map_het (f : α → β) (g : β → γ) (l : List α) :
    (l.map f).map g = l.map (fun a => g (f a)) := by
  induction l with
  | nil => rfl
  | cons a as ih => simp [ih]

/-- Filtering a concatenation whose front fails the predicate and whose
back satisfies it yields the back. -/
theorem filter_split {p : α → Bool} {l1 l2 : List α}
    (h1 : ∀ x ∈ l1, p x = false) (h2 : ∀ x ∈ l2, p x = true) :
    (l1 ++ l2).filter p = l2 := by
  rw [List.filter_append,
    List.filter_eq_nil_iff.mpr (fun a ha => by simp [h1 a ha]),
    List.filter_eq_self.mpr (fun a ha => h2 a ha)]
  rfl

/-- C3 (confirmed): a store of ten posts `l1 ++ p4 :: l2`
(`|l1| = 3`, `|l2| = 6`) with strictly decreasing, distinct `indexedAt`
— decreasing both as timestamps and in serialised form, as is true of
every real timestamp sequence — paginates deterministically on SQLite
and MongoDB alike: `limit:4` returns exactly the first four posts
(P1–P4), `limit:4` with `cursor = P4.indexedAt` returns exactly the next
four (P5–P8), and (the uris being distinct) the two pages share no
record: the cursor is an exclusive upper bound. -/
theorem c3_paginationDeterminism
    (l1 : List PostInput) (p4 : PostInput) (l2 : List PostInput)
    (h1 : l1.length = 3) (h2 : l2.length = 6)
    (hpairS : (l1 ++ p4 :: l2).Pairwise
      (fun x y => strLtB (isoOfMs y.indexedAt) (isoOfMs x.indexedAt) = true))
    (hpairN : (l1 ++ p4 :: l2).Pairwise
      (fun x y => y.indexedAt < x.indexedAt))
    (hnod : ((l1 ++ p4 :: l2).map (fun p => p.uri)).Nodup)
    (hp4 : parseIsoZ (isoOfMs p4.indexedAt) = some p4.indexedAt) :
    sqliteFindMany ⟨(l1 ++ p4 :: l2).map sqliteRowOf, []⟩
        { authorDid := none, limit := some 4, cursor := none }
      = (l1 ++ [p4]).map (fun p => sRecordOfRow (sqliteRowOf p)) ∧
    sqliteFindMany ⟨(l1 ++ p4 :: l2).map sqliteRowOf, []⟩
        { authorDid := none, limit := some 4,
          cursor := some (isoOfMs p4.indexedAt) }
      = (l2.take 4).map (fun p => sRecordOfRow (sqliteRowOf p)) ∧
    mongoFindMany ⟨(l1 ++ p4 :: l2).map mongoRowOf, []⟩
        { authorDid := none, limit := some 4, cursor := none }
      = (l1 ++ [p4]).map (fun p => mRecordOfRow (mongoRowOf p)) ∧
    mongoFindMany ⟨(l1 ++ p4 :: l2).map mongoRowOf, []⟩
        { authorDid := none, limit := some 4,
          cursor := some (isoOfMs p4.indexedAt) }
      = (l2.take 4).map (fun p => mRecordOfRow (mongoRowOf p)) ∧
    (∀ r ∈ (l1 ++ [p4]).map (fun p => sRecordOfRow (sqliteRowOf p)),
      r ∉ (l2.take 4).map (fun p => sRecordOfRow (sqliteRowOf p))) ∧
    (∀ r ∈ (l1 ++ [p4]).map (fun p => mRecordOfRow (mongoRowOf p)),
      r ∉ (l2.take 4).map (fun p => mRecordOfRow (mongoRowOf p))) := by
  -- shape of the first page and of the remainder
  have htake4 : (l1 ++ p4 :: l2).take 4 = l1 ++ [p4] := by
    rw [List.take_append_eq_append_take, List.take_of_length_le (by omega),
      h1]
    rfl
  have hdrop4 : (l1 ++ p4 :: l2).drop 4 = l2 := by
    rw [List.drop_append_eq_append_drop, List.drop_eq_nil_of_le (by omega),
      h1]
    rfl
  -- the pairwise order, split at p4
  have hsplit := List.pairwise_append.mp hpairS
  have hsplitN := List.pairwise_append.mp hpairN
  have hl2S : ∀ y ∈ l2, strLtB (isoOfMs y.indexedAt)
      (isoOfMs p4.indexedAt) = true :=
    fun y hy => (List.pairwise_cons.mp hsplit.2.1).1 y hy
  have hl1S : ∀ x ∈ l1, strLtB (isoOfMs x.indexedAt)
      (isoOfMs p4.indexedAt) = false :=
    fun x hx => strLtB_asymm (hsplit.2.2 x hx p4 (by simp))
  have hl2N : ∀ y ∈ l2, y.indexedAt < p4.indexedAt :=
    fun y hy => (List.pairwise_cons.mp hsplitN.2.1).1 y hy
  have hl1N : ∀ x ∈ l1, ¬ (x.indexedAt < p4.indexedAt) :=
    fun x hx => Nat.lt_asymm (hsplitN.2.2 x hx p4 (by simp))
  -- the full store and the remainder are already sorted, on both backends
  have hsortS : sortByRel sRowGe ((l1 ++ p4 :: l2).map sqliteRowOf)
      = (l1 ++ p4 :: l2).map sqliteRowOf := by
    apply sortByRel_of_pairwise
    rw [List.pairwise_map]
    exact hpairS.imp (fun hab => by
      simp only [sRowGe, sqliteRowOf, strLtB_asymm hab]
      rfl)
  have hsortS2 : sortByRel sRowGe (l2.map sqliteRowOf)
      = l2.map sqliteRowOf := by
    apply sortByRel_of_pairwise
    rw [List.pairwise_map]
    exact ((List.pairwise_cons.mp hsplit.2.1).2).imp (fun hab => by
      simp only [sRowGe, sqliteRowOf, strLtB_asymm hab]
      rfl)
  have hsortM : sortByRel mRowGe ((l1 ++ p4 :: l2).map mongoRowOf)
      = (l1 ++ p4 :: l2).map mongoRowOf := by
    apply sortByRel_of_pairwise
    rw [List.pairwise_map]
    exact hpairN.imp (fun hab => by
      simp only [mRowGe, mongoRowOf]
      simp [Nat.lt_asymm hab])
  have hsortM2 : sortByRel mRowGe (l2.map mongoRowOf)
      = l2.map mongoRowOf := by
    apply sortByRel_of_pairwise
    rw [List.pairwise_map]
    exact ((List.pairwise_cons.mp hsplitN.2.1).2).imp (fun hab => by
      simp only [mRowGe, mongoRowOf]
      simp [Nat.lt_asymm hab])
  -- the truthy ISO cursor
  have hcu : jsOrNone (some (isoOfMs p4.indexedAt))
      = some (isoOfMs p4.indexedAt) :=
    jsOrNone_eq_self (fun h => isoOfMs_ne_empty p4.indexedAt (by injection h))
  -- keep the serialised cursor abstract from here on
  obtain ⟨cu, hgen⟩ : ∃ c, isoOfMs p4.indexedAt = c := ⟨_, rfl⟩
  rw [hgen] at hl1S hl2S hcu hp4
  rw [hgen]
  -- page boundaries via the uri disjointness of take and drop
  have hdisj : List.Disjoint
      (((l1 ++ p4 :: l2).map (fun p => p.uri)).take 4)
      (((l1 ++ p4 :: l2).map (fun p => p.uri)).drop 4) :=
    List.disjoint_take_drop hnod (Nat.le_refl 4)
  have huri_take : ∀ q ∈ l1 ++ [p4],
      q.uri ∈ ((l1 ++ p4 :: l2).map (fun p => p.uri)).take 4 := by
    intro q hq
    rw [← List.map_take, htake4]
    exact List.mem_map_of_mem _ hq
  have huri_drop : ∀ q ∈ l2.take 4,
      q.uri ∈ ((l1 ++ p4 :: l2).map (fun p => p.uri)).drop 4 := by
    intro q hq
    rw [← List.map_drop, hdrop4]
    exact List.mem_map_of_mem _ (List.take_subset 4 l2 hq)
  refine ⟨?_, ?_, ?_, ?_, ?_, ?_⟩
  · -- SQLite, first page
    simp only [sqliteFindMany, jsOrNone_none, jsNatOpt, hsortS]
    rw [← List.map_take, htake4, map_map_het]
  · -- SQLite, second page
    simp only [sqliteFindMany, jsOrNone_none, jsNatOpt, hcu]
    rw [filter_map_het]
    rw [show l1 ++ p4 :: l2 = (l1 ++ [p4]) ++ l2 by simp,
      filter_split
        (p := fun a => strLtB (sqliteRowOf a).indexedAt cu)
        (by
          intro x hx
          simp only [List.mem_append, List.mem_singleton] at hx
          rcases hx with hx | hx
          · exact hl1S x hx
          · rw [hx]
            show strLtB (isoOfMs p4.indexedAt) cu = false
            rw [hgen]
            exact strLtB_irrefl _)
        (fun y hy => hl2S y hy),
      hsortS2, ← List.map_take, map_map_het]
  · -- MongoDB, first page
    simp only [mongoFindMany, jsOrNone_none, jsNatOpt, hsortM]
    rw [← List.map_take, htake4, map_map_het]
  · -- MongoDB, second page
    simp only [mongoFindMany, jsOrNone_none, jsNatOpt, hcu, hp4]
    rw [filter_map_het]
    rw [show l1 ++ p4 :: l2 = (l1 ++ [p4]) ++ l2 by simp,
      filter_split
        (p := fun a => decide ((mongoRowOf a).indexedAt < p4.indexedAt))
        (by
          intro x hx
          simp only [List.mem_append, List.mem_singleton] at hx
          rcases hx with hx | hx
          · simp [mongoRowOf, hl1N x hx]
          · rw [hx]; simp [mongoRowOf])
        (fun y hy => by simp [mongoRowOf, hl2N y hy]),
      hsortM2, ← List.map_take, map_map_het]
  · -- zero overlap, SQLite records
    intro r hr hr'
    obtain ⟨p, hp, hpr⟩ := List.mem_map.mp hr
    obtain ⟨q, hq, hqr⟩ := List.mem_map.mp hr'
    have huri : p.uri = q.uri := by
      have : (sRecordOfRow (sqliteRowOf p)).uri
          = (sRecordOfRow (sqliteRowOf q)).uri := by rw [hpr, hqr]
      exact this
    exact hdisj (huri_take p hp) (huri ▸ huri_drop q hq)
  · -- zero overlap, MongoDB records
    intro r hr hr'
    obtain ⟨p, hp, hpr⟩ := List.mem_map.mp hr
    obtain ⟨q, hq, hqr⟩ := List.mem_map.mp hr'
    have huri : p.uri = q.uri := by
      have : (mRecordOfRow (mongoRowOf p)).uri
          = (mRecordOfRow (mongoRowOf q)).uri := by rw [hpr, hqr]
      exact this
    exact hdisj (huri_take p hp) (huri ▸ huri_drop q hq)

/-- C3 witness: ten concrete posts with timestamps 10000 down to 1000
satisfy every hypothesis, and the two four-post pages follow. -/
theorem c3_paginationDeterminism_witness :
    (c3l1.length = 3 ∧ c3l2.length = 6 ∧
    (c3l1 ++ c3p4 :: c3l2).Pairwise
      (fun x y => strLtB (isoOfMs y.indexedAt) (isoOfMs x.indexedAt) = true) ∧
    (c3l1 ++ c3p4 :: c3l2).Pairwise
      (fun x y => y.indexedAt < x.indexedAt) ∧
    ((c3l1 ++ c3p4 :: c3l2).map (fun p => p.uri)).Nodup ∧
    parseIsoZ (isoOfMs c3p4.indexedAt) = some c3p4.indexedAt) ∧
    (sqliteFindMany ⟨(c3l1 ++ c3p4 :: c3l2).map sqliteRowOf, []⟩
        { authorDid := none, limit := some 4, cursor := none }
      = (c3l1 ++ [c3p4]).map (fun p => sRecordOfRow (sqliteRowOf p)) ∧
    sqliteFindMany ⟨(c3l1 ++ c3p4 :: c3l2).map sqliteRowOf, []⟩
        { authorDid := none, limit := some 4,
          cursor := some (isoOfMs c3p4.indexedAt) }
      = (c3l2.take 4).map (fun p => sRecordOfRow (sqliteRowOf p)) ∧
    mongoFindMany ⟨(c3l1 ++ c3p4 :: c3l2).map mongoRowOf, []⟩
        { authorDid := none, limit := some 4, cursor := none }
      = (c3l1 ++ [c3p4]).map (fun p => mRecordOfRow (mongoRowOf p)) ∧
    mongoFindMany ⟨(c3l1 ++ c3p4 :: c3l2).map mongoRowOf, []⟩
        { authorDid := none, limit := some 4,
          cursor := some (isoOfMs c3p4.indexedAt) }
      = (c3l2.take 4).map (fun p => mRecordOfRow (mongoRowOf p)) ∧
    (∀ r ∈ (c3l1 ++ [c3p4]).map (fun p => sRecordOfRow (sqliteRowOf p)),
      r ∉ (c3l2.take 4).map (fun p => sRecordOfRow (sqliteRowOf p))) ∧
    (∀ r ∈ (c3l1 ++ [c3p4]).map (fun p => mRecordOfRow (mongoRowOf p)),
      r ∉ (c3l2.take 4).map (fun p => mRecordOfRow (mongoRowOf p)))) :=
  ⟨⟨by decide, by decide, by decide, by decide, by decide, by decide⟩,
    c3_paginationDeterminism c3l1 c3p4 c3l2 (by decide) (by decide)
      (by decide) (by decide) (by decide) (by decide)⟩

/-! ## Claims C4/C5/C10 — create, read back, uniqueness, id fields -/

/-- Inversion of a successful SQLite `create`: the uri was free, the row
was appended, and the returned record's `id` is the fresh uuid. -/
theorem sqliteCreate_ok {s : SState} {p : PostInput} {fId : String}
    {s' : SState} {r : PostRecord}
    (hc : sqliteCreate s p fId = .ok (s', r)) :
    s.posts.any (fun row => row.uri == p.uri) = false ∧
    s'.posts = s.posts ++ [sqliteRowOf p] ∧ s'.subs = s.subs ∧ r.id = fId := by
  cases hdup : s.posts.any (fun row => row.uri == p.uri) with
  | true => simp [sqliteCreate, hdup] at hc
  | false =>
    simp only [sqliteCreate, hdup, Bool.false_eq_true, if_false,
      Except.ok.injEq, Prod.mk.injEq] at hc
    obtain ⟨hs, hr⟩ := hc
    exact ⟨rfl, by rw [← hs], by rw [← hs], by rw [← hr]⟩

/-- Inversion of a successful MongoDB `create`. -/
theorem mongoCreate_ok {s : MState} {p : PostInput} {fId : String}
    {s' : MState} {r : PostRecord}
    (hc : mongoCreate s p fId = .ok (s', r)) :
    s.posts.any (fun row => row.uri == p.uri) = false ∧
    s'.posts = s.posts ++ [mongoRowOf p] ∧ s'.subs = s.subs ∧ r.id = fId := by
  cases hdup : s.posts.any (fun row => row.uri == p.uri) with
  | true => simp [mongoCreate, hdup] at hc
  | false =>
    simp only [mongoCreate, hdup, Bool.false_eq_true, if_false,
      Except.ok.injEq, Prod.mk.injEq] at hc
    obtain ⟨hs, hr⟩ := hc
    exact ⟨rfl, by rw [← hs], by rw [← hs], by rw [← hr]⟩

/-- A uri absent by `any` is absent from `find?`. -/
theorem find?_of_any_false {l : List SRow} {u : String}
    (h : l.any (fun row => row.uri == u) = false) :
    l.find? (fun row => row.uri == u) = none := by
  rw [List.find?_eq_none]
  intro x hx
  rw [List.any_eq_false] at h
  simp [h x hx]

/-- C4 (confirmed): creating a valid post and reading it back by uri
returns a record equal to the input in every field (`uri`, `cid`,
`replyParent`, `replyRoot`, `authorDid`, `recordJson`, `indexedAt`).
Validity of `p`: the optional reply references are not the empty string
(the write path's `|| null` coercion would drop those) and the
timestamp round-trips through its ISO serialisation (true of every real
timestamp). -/
theorem c4_roundTrip (s : SState) (p : PostInput) (freshId : String)
    (s' : SState) (r : PostRecord)
    (hrep1 : p.replyParent ≠ some "") (hrep2 : p.replyRoot ≠ some "")
    (hgood : parseIsoZ (isoOfMs p.indexedAt) = some p.indexedAt)
    (hc : sqliteCreate s p freshId = .ok (s', r)) :
    sqliteFindByUri s' p.uri = some
      { id := p.uri, uri := p.uri, cid := p.cid,
        replyParent := p.replyParent, replyRoot := p.replyRoot,
        authorDid := p.authorDid, recordJson := p.recordJson,
        indexedAt := some p.indexedAt } := by
  obtain ⟨hfree, hposts, -, -⟩ := sqliteCreate_ok hc
  simp only [sqliteFindByUri, hposts, List.find?_append,
    find?_of_any_false hfree, Option.none_or]
  have hfind : [sqliteRowOf p].find? (fun row => row.uri == p.uri)
      = some (sqliteRowOf p) := by
    simp [List.find?, sqliteRowOf]
  rw [hfind]
  simp [sRecordOfRow, sqliteRowOf, jsOrNone_eq_self hrep1,
    jsOrNone_eq_self hrep2, hgood]

/-- C4 witness: a concrete post with both reply references set, created
into the empty store under uuid `"uuid-1"`, reads back equal in all
fields. -/
theorem c4_roundTrip_witness :
    (c4post.replyParent ≠ some "" ∧ c4post.replyRoot ≠ some "" ∧
      parseIsoZ (isoOfMs c4post.indexedAt) = some c4post.indexedAt ∧
      sqliteCreate SState.empty c4post "uuid-1"
        = .ok (⟨[sqliteRowOf c4post], []⟩,
          { id := "uuid-1", uri := c4post.uri, cid := c4post.cid,
            replyParent := c4post.replyParent,
            replyRoot := c4post.replyRoot,
            authorDid := c4post.authorDid,
            recordJson := c4post.recordJson,
            indexedAt := some c4post.indexedAt })) ∧
    sqliteFindByUri ⟨[sqliteRowOf c4post], []⟩ c4post.uri = some
      { id := c4post.uri, uri := c4post.uri, cid := c4post.cid,
        replyParent := c4post.replyParent, replyRoot := c4post.replyRoot,
        authorDid := c4post.authorDid, recordJson := c4post.recordJson,
        indexedAt := some c4post.indexedAt } :=
  ⟨⟨by decide, by decide, by decide, rfl⟩,
    c4_roundTrip SState.empty c4post "uuid-1" _ _ (by decide) (by decide)
      (by decide) rfl⟩

/-- C5 (confirmed): once `createPost(p)` has succeeded, a second create
with the same `uri` is rejected with the engine's duplicate-key error —
a distinguished error (`DbErr.duplicateKey`: MongoDB `E11000` on the
unique `uri` index, SQLite's `uri` primary-key violation) — and the
store still holds exactly one record for that `uri`.  Stated for the
MongoDB adapter (whose `migrate` creates the unique index) and the
SQLite adapter alike. -/
theorem c5_uniqueness (sm : MState) (ss : SState) (p q : PostInput)
    (f1 f2 g1 g2 : String) (sm' : MState) (ss' : SState)
    (rm rs : PostRecord) (hq : q.uri = p.uri)
    (hcm : mongoCreate sm p f1 = .ok (sm', rm))
    (hcs : sqliteCreate ss p g1 = .ok (ss', rs)) :
    mongoCreate sm' q f2 = .error .duplicateKey ∧
    (sm'.posts.filter (fun r => r.uri == p.uri)).length = 1 ∧
    sqliteCreate ss' q g2 = .error .duplicateKey ∧
    (ss'.posts.filter (fun r => r.uri == p.uri)).length = 1 := by
  obtain ⟨hfm, hpm, -, -⟩ := mongoCreate_ok hcm
  obtain ⟨hfs, hps, -, -⟩ := sqliteCreate_ok hcs
  have hfilm : sm.posts.filter (fun r => r.uri == p.uri) = [] := by
    rw [List.filter_eq_nil_iff]
    rw [List.any_eq_false] at hfm
    intro a ha
    simp [hfm a ha]
  have hfils : ss.posts.filter (fun r => r.uri == p.uri) = [] := by
    rw [List.filter_eq_nil_iff]
    rw [List.any_eq_false] at hfs
    intro a ha
    simp [hfs a ha]
  have hanym : sm'.posts.any (fun r => r.uri == q.uri) = true := by
    rw [hpm, hq, List.any_append]
    simp [mongoRowOf]
  have hanys : ss'.posts.any (fun r => r.uri == q.uri) = true := by
    rw [hps, hq, List.any_append]
    simp [sqliteRowOf]
  refine ⟨?_, ?_, ?_, ?_⟩
  · simp [mongoCreate, hanym]
  · rw [hpm, List.filter_append, hfilm]
    simp [mongoRowOf]
  · simp [sqliteCreate, hanys]
  · rw [hps, List.filter_append, hfils]
    simp [sqliteRowOf]

/-- C5 witness: a concrete post created into both empty stores; the
duplicate (same uri, different cid and uuid) is rejected and the count
stays one. -/
theorem c5_uniqueness_witness :
    (c4post.uri = c4post.uri ∧
      mongoCreate MState.empty c4post "uuid-1"
        = .ok (⟨[mongoRowOf c4post], []⟩,
          { id := "uuid-1", uri := c4post.uri, cid := c4post.cid,
            replyParent := c4post.replyParent,
            replyRoot := c4post.replyRoot,
            authorDid := c4post.authorDid,
            recordJson := c4post.recordJson,
            indexedAt := some c4post.indexedAt }) ∧
      sqliteCreate SState.empty c4post "uuid-2"
        = .ok (⟨[sqliteRowOf c4post], []⟩,
          { id := "uuid-2", uri := c4post.uri, cid := c4post.cid,
            replyParent := c4post.replyParent,
            replyRoot := c4post.replyRoot,
            authorDid := c4post.authorDid,
            recordJson := c4post.recordJson,
            indexedAt := some c4post.indexedAt })) ∧
    (mongoCreate ⟨[mongoRowOf c4post], []⟩ c4post "uuid-3"
        = .error .duplicateKey ∧
      (([mongoRowOf c4post] : List MRow).filter
        (fun r => r.uri == c4post.uri)).length = 1 ∧
      sqliteCreate ⟨[sqliteRowOf c4post], []⟩ c4post "uuid-4"
        = .error .duplicateKey ∧
      (([sqliteRowOf c4post] : List SRow).filter
        (fun r => r.uri == c4post.uri)).length = 1) :=
  ⟨⟨rfl, rfl, rfl⟩,
    c5_uniqueness MState.empty SState.empty c4post c4post
      "uuid-1" "uuid-3" "uuid-2" "uuid-4" _ _ _ _ rfl rfl rfl⟩

/-- C10 (confirmed): every record returned by the SQLite read paths
(`findByUri`, `findMany`) carries `id = uri` (`id: row.uri` in the row
mapping), while the record returned by `createPost` carries the freshly
generated uuid as `id`; hence whenever that uuid differs from the post's
`uri` (always, for a fresh random uuid against an `at://` uri), the
created record and every subsequent read of the same post disagree on
`id`. -/
theorem c10_idFields :
    (∀ (s : SState) (u : String) (rec : PostRecord),
      sqliteFindByUri s u = some rec → rec.id = rec.uri) ∧
    (∀ (s : SState) (c : FindCriteria) (rec : PostRecord),
      rec ∈ sqliteFindMany s c → rec.id = rec.uri) ∧
    (∀ (s : SState) (p : PostInput) (fId : String) (s' : SState)
      (r rec : PostRecord), fId ≠ p.uri →
      sqliteCreate s p fId = .ok (s', r) →
      sqliteFindByUri s' p.uri = some rec → r.id ≠ rec.id) := by
  have hbyUri : ∀ (s : SState) (u : String) (rec : PostRecord),
      sqliteFindByUri s u = some rec → rec.id = rec.uri ∧ rec.uri = u := by
    intro s u rec h
    simp only [sqliteFindByUri] at h
    cases hf : s.posts.find? (fun row => row.uri == u) with
    | none => rw [hf] at h; simp at h
    | some row =>
      rw [hf] at h
      have h' : sRecordOfRow row = rec := by simpa using h
      have hrow : (row.uri == u) = true :=
        List.find?_some (p := fun w : SRow => w.uri == u) hf
      rw [← h']
      exact ⟨rfl, by simpa [sRecordOfRow] using hrow⟩
  refine ⟨fun s u rec h => (hbyUri s u rec h).1, ?_, ?_⟩
  · intro s c rec h
    simp only [sqliteFindMany] at h
    obtain ⟨row, -, hrow⟩ := List.mem_map.mp h
    rw [← hrow]
    rfl
  · intro s p fId s' r rec hne hc hfind
    obtain ⟨-, -, -, hid⟩ := sqliteCreate_ok hc
    obtain ⟨hrid, hruri⟩ := hbyUri s' p.uri rec hfind
    rw [hid, hrid, hruri]
    exact hne

/-- C10 witness: with uuid `"uuid-1"` and an `at://` uri, the created
record's `id` differs from the `id` under which the post is read back. -/
theorem c10_idFields_witness :
    (("uuid-1" : String) ≠ c4post.uri ∧
      sqliteCreate SState.empty c4post "uuid-1"
        = .ok (⟨[sqliteRowOf c4post], []⟩,
          { id := "uuid-1", uri := c4post.uri, cid := c4post.cid,
            replyParent := c4post.replyParent,
            replyRoot := c4post.replyRoot,
            authorDid := c4post.authorDid,
            recordJson := c4post.recordJson,
            indexedAt := some c4post.indexedAt }) ∧
      sqliteFindByUri ⟨[sqliteRowOf c4post], []⟩ c4post.uri
        = some (sRecordOfRow (sqliteRowOf c4post))) ∧
    ({ id := "uuid-1", uri := c4post.uri, cid := c4post.cid,
        replyParent := c4post.replyParent, replyRoot := c4post.replyRoot,
        authorDid := c4post.authorDid, recordJson := c4post.recordJson,
        indexedAt := some c4post.indexedAt } : PostRecord).id
      ≠ (sRecordOfRow (sqliteRowOf c4post)).id :=
  ⟨⟨by decide, rfl, rfl⟩,
    c10_idFields.2.2 SState.empty c4post "uuid-1" _ _ _ (by decide) rfl rfl⟩

/-! ## Claims C6/C7 — ingestion pipeline -/

/-- The create loop only appends rows: a present uri stays present. -/
theorem applyCreates_mono {ps : List PostInput} :
    ∀ {s : SState} {u : String},
    s.posts.any (fun r => r.uri == u) = true →
    (applyCreates s ps).posts.any (fun r => r.uri == u) = true := by
  induction ps with
  | nil => intro s u h; exact h
  | cons q rest ih =>
    intro s u h
    simp only [applyCreates]
    cases hdup : s.posts.any (fun r => r.uri == q.uri) with
    | true =>
      simp only [sqliteCreate, hdup, if_true]
      exact ih h
    | false =>
      simp only [sqliteCreate, hdup, Bool.false_eq_true, if_false]
      exact ih (by simp [List.any_append, h])

/-- After the create loop, every attempted uri is present (created now,
or already there). -/
theorem applyCreates_present {ps : List PostInput} :
    ∀ {s : SState}, ∀ p ∈ ps,
    (applyCreates s ps).posts.any (fun r => r.uri == p.uri) = true := by
  induction ps with
  | nil => intro s p hp; simp at hp
  | cons q rest ih =>
    intro s p hp
    simp only [applyCreates]
    rcases List.mem_cons.mp hp with hpq | hpr
    · subst hpq
      cases hdup : s.posts.any (fun r => r.uri == p.uri) with
      | true =>
        simp only [sqliteCreate, hdup, if_true]
        exact applyCreates_mono hdup
      | false =>
        simp only [sqliteCreate, hdup, Bool.false_eq_true, if_false]
        exact applyCreates_mono (by simp [List.any_append, sqliteRowOf])
    · cases hdup : s.posts.any (fun r => r.uri == q.uri) with
      | true =>
        simp only [sqliteCreate, hdup, if_true]
        exact ih p hpr
      | false =>
        simp only [sqliteCreate, hdup, Bool.false_eq_true, if_false]
        exact ih p hpr

/-- The create loop is a no-op when every attempted uri already exists:
each duplicate insert fails and is swallowed. -/
theorem applyCreates_allPresent {ps : List PostInput} :
    ∀ {s : SState},
    (∀ p ∈ ps, s.posts.any (fun r => r.uri == p.uri) = true) →
    applyCreates s ps = s := by
  induction ps with
  | nil => intro s _; rfl
  | cons q rest ih =>
    intro s h
    have hq := h q (by simp)
    simp only [applyCreates, sqliteCreate, hq, if_true]
    exact ih (fun p hp => h p (by simp [hp]))

/-- The create loop preserves the absence of a uri none of its records
carries. -/
theorem applyCreates_absent {ps : List PostInput} :
    ∀ {s : SState} {u : String}, (∀ p ∈ ps, p.uri ≠ u) →
    s.posts.any (fun r => r.uri == u) = false →
    (applyCreates s ps).posts.any (fun r => r.uri == u) = false := by
  induction ps with
  | nil => intro s u _ h; exact h
  | cons q rest ih =>
    intro s u hne h
    simp only [applyCreates]
    cases hdup : s.posts.any (fun r => r.uri == q.uri) with
    | true =>
      simp only [sqliteCreate, hdup, if_true]
      exact ih (fun p hp => hne p (by simp [hp])) h
    | false =>
      simp only [sqliteCreate, hdup, Bool.false_eq_true, if_false]
      refine ih (fun p hp => hne p (by simp [hp])) ?_
      simp [List.any_append, h, sqliteRowOf, hne q (by simp)]

/-- The delete loop only removes rows: an absent uri stays absent. -/
theorem applyDeletes_mono {us : List String} :
    ∀ {s : SState} {u : String},
    s.posts.any (fun r => r.uri == u) = false →
    (applyDeletes s us).posts.any (fun r => r.uri == u) = false := by
  induction us with
  | nil => intro s u h; exact h
  | cons v rest ih =>
    intro s u h
    simp only [applyDeletes, sqliteDeleteByUri]
    apply ih
    rw [List.any_eq_false] at h ⊢
    intro x hx
    exact h x (List.filter_subset' _ hx)

/-- After the delete loop, every deleted uri is gone. -/
theorem applyDeletes_absent {us : List String} :
    ∀ {s : SState}, ∀ u ∈ us,
    (applyDeletes s us).posts.any (fun r => r.uri == u) = false := by
  induction us with
  | nil => intro s u hu; simp at hu
  | cons v rest ih =>
    intro s u hu
    rcases List.mem_cons.mp hu with huv | hur
    · subst huv
      simp only [applyDeletes, sqliteDeleteByUri]
      apply applyDeletes_mono
      rw [List.any_eq_false]
      intro x hx
      have := (List.mem_filter.mp hx).2
      simp at this
      simp [this]
    · simp only [applyDeletes]
      exact ih u hur

/-- The delete loop is a no-op when none of its uris is stored. -/
theorem applyDeletes_allAbsent {us : List String} :
    ∀ {s : SState},
    (∀ u ∈ us, s.posts.any (fun r => r.uri == u) = false) →
    applyDeletes s us = s := by
  induction us with
  | nil => intro s _; rfl
  | cons v rest ih =>
    intro s h
    have hv := h v (by simp)
    have hfix : s.posts.filter (fun r => !(r.uri == v)) = s.posts := by
      apply List.filter_eq_self.mpr
      intro a ha
      rw [List.any_eq_false] at hv
      simp [hv a ha]
    simp only [applyDeletes, sqliteDeleteByUri, hfix]
    exact ih (fun u hu => h u (by simp [hu]))

/-- C6 (corrected): replaying a batch is idempotent provided no uri
occurs both among the batch's deletes and its creates (without that
proviso the replayed delete-then-recreate refreshes the row's
`indexedAt` — see the counterexample); independently, for every batch
the pipeline never produces duplicate uri rows, because a duplicate
`create` fails on the unique key and the error is caught and swallowed
by the per-record `try/catch`. -/
theorem c6_replayIdempotence (evt : CommitOps) (now1 now2 : Nat) (s : SState)
    (hdisj : ∀ u ∈ evt.deletes, ∀ c ∈ evt.creates, c.uri ≠ u) :
    handleEvent evt now2 (handleEvent evt now1 s) = handleEvent evt now1 s ∧
    (∀ (evt' : CommitOps) (now : Nat) (s' : SState),
      (s'.posts.map (fun r => r.uri)).Nodup →
      ((handleEvent evt' now s').posts.map (fun r => r.uri)).Nodup) := by
  constructor
  · -- idempotence
    have habsent : ∀ u ∈ evt.deletes,
        (handleEvent evt now1 s).posts.any (fun r => r.uri == u) = false := by
      intro u hu
      simp only [handleEvent]
      apply applyCreates_absent
      · intro p hp
        obtain ⟨c, hc, hcp⟩ := List.mem_map.mp hp
        rw [← hcp]
        exact hdisj u hu c hc
      · exact applyDeletes_absent u hu
    have hpresent : ∀ p ∈ evt.creates.map (inputOfCreate now2),
        (handleEvent evt now1 s).posts.any (fun r => r.uri == p.uri)
          = true := by
      intro p hp
      obtain ⟨c, hc, hcp⟩ := List.mem_map.mp hp
      rw [← hcp]
      simp only [handleEvent]
      exact applyCreates_present (inputOfCreate now1 c)
        (List.mem_map_of_mem _ hc)
    conv =>
      lhs
      rw [handleEvent]
    rw [applyDeletes_allAbsent habsent, applyCreates_allPresent hpresent]
  · -- uniqueness preservation
    intro evt' now s' hnod
    simp only [handleEvent]
    have hdel : ∀ {us : List String} {st : SState},
        (st.posts.map (fun r => r.uri)).Nodup →
        ((applyDeletes st us).posts.map (fun r => r.uri)).Nodup := by
      intro us
      induction us with
      | nil => intro st h; exact h
      | cons v rest ih =>
        intro st h
        simp only [applyDeletes, sqliteDeleteByUri]
        exact ih (h.sublist ((List.filter_sublist _).map _))
    have hcre : ∀ {ps : List PostInput} {st : SState},
        (st.posts.map (fun r => r.uri)).Nodup →
        ((applyCreates st ps).posts.map (fun r => r.uri)).Nodup := by
      intro ps
      induction ps with
      | nil => intro st h; exact h
      | cons q rest ih =>
        intro st h
        simp only [applyCreates]
        cases hdup : st.posts.any (fun r => r.uri == q.uri) with
        | true =>
          simp only [sqliteCreate, hdup, if_true]
          exact ih h
        | false =>
          simp only [sqliteCreate, hdup, Bool.false_eq_true, if_false]
          apply ih
          rw [List.map_append]
          apply List.Nodup.append h (by simp)
          intro a ha hb
          simp only [List.map_cons, List.map_nil, List.mem_singleton] at hb
          obtain ⟨x, hx, hxa⟩ := List.mem_map.mp ha
          rw [List.any_eq_false] at hdup
          apply hdup x hx
          show (x.uri == q.uri) = true
          rw [beq_iff_eq, hxa, hb]
          rfl
    exact hcre (hdel hnod)

/-- C6 counterexample: a batch that deletes and recreates the same uri
is not idempotent under redelivery at a later wall-clock instant — the
second application refreshes the stored `indexedAt` (0 becomes 1). -/
theorem c6_replayIdempotence_counterexample :
    handleEvent ⟨["at://did:example:alice/app.bsky.feed.post/1"],
        [mkCreate "at://did:example:alice/app.bsky.feed.post/1" "c1"]⟩ 1
      (handleEvent ⟨["at://did:example:alice/app.bsky.feed.post/1"],
        [mkCreate "at://did:example:alice/app.bsky.feed.post/1" "c1"]⟩ 0
        SState.empty)
      ≠ handleEvent ⟨["at://did:example:alice/app.bsky.feed.post/1"],
        [mkCreate "at://did:example:alice/app.bsky.feed.post/1" "c1"]⟩ 0
        SState.empty := by
  decide

/-- C6 witness: a batch deleting one uri and creating a different one is
idempotent across redelivery at a later instant. -/
theorem c6_replayIdempotence_witness :
    (∀ u ∈ (⟨["at://did:example:alice/app.bsky.feed.post/old"],
        [mkCreate "at://did:example:alice/app.bsky.feed.post/new" "c1"]⟩
        : CommitOps).deletes,
      ∀ c ∈ (⟨["at://did:example:alice/app.bsky.feed.post/old"],
        [mkCreate "at://did:example:alice/app.bsky.feed.post/new" "c1"]⟩
        : CommitOps).creates, c.uri ≠ u) ∧
    (handleEvent ⟨["at://did:example:alice/app.bsky.feed.post/old"],
        [mkCreate "at://did:example:alice/app.bsky.feed.post/new" "c1"]⟩ 1
      (handleEvent ⟨["at://did:example:alice/app.bsky.feed.post/old"],
        [mkCreate "at://did:example:alice/app.bsky.feed.post/new" "c1"]⟩ 0
        SState.empty)
      = handleEvent ⟨["at://did:example:alice/app.bsky.feed.post/old"],
        [mkCreate "at://did:example:alice/app.bsky.feed.post/new" "c1"]⟩ 0
        SState.empty ∧
    (∀ (evt' : CommitOps) (now : Nat) (s' : SState),
      (s'.posts.map (fun r => r.uri)).Nodup →
      ((handleEvent evt' now s').posts.map (fun r => r.uri)).Nodup)) :=
  ⟨by decide,
    c6_replayIdempotence
      ⟨["at://did:example:alice/app.bsky.feed.post/old"],
        [mkCreate "at://did:example:alice/app.bsky.feed.post/new" "c1"]⟩
      0 1 SState.empty (by decide)⟩

/-- The create loop over a concatenation is the loop over the first part
followed by the loop over the second. -/
theorem applyCreates_append (l1 l2 : List PostInput) :
    ∀ (s : SState),
    applyCreates s (l1 ++ l2) = applyCreates (applyCreates s l1) l2 := by
  induction l1 with
  | nil => intro s; rfl
  | cons q rest ih =>
    intro s
    simp only [List.cons_append, applyCreates]
    cases sqliteCreate s q "" with
    | ok v => exact ih v.1
    | error e => exact ih s

/-- C7 (confirmed): `handleEvent` applies all deletes before any create,
one record at a time, and a per-record failure does not stop the batch.
First conjunct — fault isolation: if the record `c` fails at its turn
(its uri already present after the deletes and the creates before it —
the only failure the model's store can produce), the batch result is
exactly the result of the batch without `c`: every record of `ys` after
the failure is still attempted.  Second conjunct — deletes run first:
a batch that deletes and creates the same uri leaves the created row
present (creates-first ordering would leave nothing). -/
theorem c7_batchOrderFaultIsolation (evt : CommitOps) (now : Nat)
    (s : SState) (xs ys : List CreateOp) (c : CreateOp)
    (hsplit : evt.creates = xs ++ c :: ys)
    (hdup : (applyCreates (applyDeletes s evt.deletes)
      (xs.map (inputOfCreate now))).posts.any
        (fun r => r.uri == c.uri) = true) :
    handleEvent evt now s
      = handleEvent ⟨evt.deletes, xs ++ ys⟩ now s ∧
    (∀ (u : String) (c' : CreateOp) (s' : SState), c'.uri = u →
      (handleEvent ⟨[u], [c']⟩ now s').posts.any
        (fun r => r.uri == u) = true) := by
  constructor
  · have hdup' : (applyCreates (applyDeletes s evt.deletes)
        (xs.map (inputOfCreate now))).posts.any
          (fun r => r.uri == (inputOfCreate now c).uri) = true := hdup
    simp only [handleEvent, hsplit, List.map_append, List.map_cons,
      applyCreates_append]
    simp only [applyCreates, sqliteCreate, hdup', if_true]
  · intro u c' s' hc'
    simp only [handleEvent, List.map_cons, List.map_nil, applyCreates,
      applyDeletes, sqliteDeleteByUri]
    have habs : ((s'.posts.filter (fun r => !(r.uri == u))) :
        List SRow).any (fun r => r.uri == (inputOfCreate now c').uri)
          = false := by
      rw [List.any_eq_false]
      intro x hx
      have := (List.mem_filter.mp hx).2
      simp only [inputOfCreate, hc']
      simp at this
      simp [this]
    simp only [sqliteCreate, habs, Bool.false_eq_true, if_false]
    rw [List.any_append]
    simp [sqliteRowOf, inputOfCreate, hc']

/-- C7 witness: in a batch `[c1, c1', c2]` whose middle record repeats
`c1`'s uri, the middle create fails and is skipped, and the batch equals
the batch `[c1, c2]`; the deletes-first ordering conjunct holds at a
store already containing the contested uri. -/
theorem c7_batchOrderFaultIsolation_witness :
    ((⟨[], [mkCreate "at://did:example:alice/app.bsky.feed.post/1" "c1",
        mkCreate "at://did:example:alice/app.bsky.feed.post/1" "c9",
        mkCreate "at://did:example:alice/app.bsky.feed.post/2" "c2"]⟩
      : CommitOps).creates
      = [mkCreate "at://did:example:alice/app.bsky.feed.post/1" "c1"]
        ++ mkCreate "at://did:example:alice/app.bsky.feed.post/1" "c9"
          :: [mkCreate "at://did:example:alice/app.bsky.feed.post/2" "c2"] ∧
    (applyCreates (applyDeletes SState.empty
        (⟨[], [mkCreate "at://did:example:alice/app.bsky.feed.post/1" "c1",
          mkCreate "at://did:example:alice/app.bsky.feed.post/1" "c9",
          mkCreate "at://did:example:alice/app.bsky.feed.post/2" "c2"]⟩
          : CommitOps).deletes)
        ([mkCreate "at://did:example:alice/app.bsky.feed.post/1" "c1"].map
          (inputOfCreate 5))).posts.any
      (fun r => r.uri
        == (mkCreate "at://did:example:alice/app.bsky.feed.post/1" "c9").uri)
      = true) ∧
    (handleEvent ⟨[], [mkCreate "at://did:example:alice/app.bsky.feed.post/1" "c1",
        mkCreate "at://did:example:alice/app.bsky.feed.post/1" "c9",
        mkCreate "at://did:example:alice/app.bsky.feed.post/2" "c2"]⟩ 5
        SState.empty
      = handleEvent ⟨[],
          [mkCreate "at://did:example:alice/app.bsky.feed.post/1" "c1"]
          ++ [mkCreate "at://did:example:alice/app.bsky.feed.post/2" "c2"]⟩ 5
        SState.empty ∧
    (∀ (u : String) (c' : CreateOp) (s' : SState), c'.uri = u →
      (handleEvent ⟨[u], [c']⟩ 5 s').posts.any
        (fun r => r.uri == u) = true)) :=
  ⟨⟨by decide, by decide⟩,
    c7_batchOrderFaultIsolation
      ⟨[], [mkCreate "at://did:example:alice/app.bsky.feed.post/1" "c1",
        mkCreate "at://did:example:alice/app.bsky.feed.post/1" "c9",
        mkCreate "at://did:example:alice/app.bsky.feed.post/2" "c2"]⟩ 5
      SState.empty
      [mkCreate "at://did:example:alice/app.bsky.feed.post/1" "c1"]
      [mkCreate "at://did:example:alice/app.bsky.feed.post/2" "c2"]
      (mkCreate "at://did:example:alice/app.bsky.feed.post/1" "c9")
      (by decide) (by decide)⟩

/-! ## Claims C8/C9 — whats-alf filtered feed -/

/-- C8 (confirmed): on the three-payload store of §8.8 —
`{"text":"I love ALF"}`, `{"text":"unrelated"}`, and a malformed
payload — the whats-alf handler with limit 10 returns exactly the first
payload's post: the unrelated post fails the case-insensitive "alf"
predicate and the malformed payload's parse failure is swallowed,
excluding it silently.  (The outgoing cursor is the ALF post's
timestamp, 0.) -/
theorem c8_filterCorrectness :
    whatsAlfHandler alfStore 10 none
      = Except.ok ⟨some "0",
          ["at://did:example:alice/app.bsky.feed.post/1"]⟩ := rfl

/-- C9 (confirmed): whenever the whats-alf handler returns, its outgoing
cursor is computed from the last row of the post-filter, post-truncation
result (`whatsAlfReturnedRows` — not from the last row fetched from the
backend), and an empty filtered result carries no cursor: the cursor is
absent exactly when the feed is empty. -/
theorem c9_outgoingCursor (posts : List SRow) (limit : Nat)
    (cursor : Option String) (out : AlgoOutput)
    (h : whatsAlfHandler posts limit cursor = .ok out) :
    out.cursor
      = (whatsAlfReturnedRows posts limit cursor).getLast?.map rowCursor ∧
    (out.cursor = none ↔ out.feed = []) := by
  simp only [whatsAlfHandler] at h
  cases hjc : jsOrNone cursor with
  | none =>
    simp only [hjc, Except.ok.injEq] at h
    subst h
    refine ⟨by simp [whatsAlfReturnedRows, hjc], ?_⟩
    simp [Option.map_eq_none', List.getLast?_eq_none_iff]
  | some cs =>
    cases hpd : parseDecimal cs with
    | none => simp [hjc, hpd] at h
    | some ms =>
      simp only [hjc, hpd, Except.ok.injEq] at h
      subst h
      refine ⟨by simp [whatsAlfReturnedRows, hjc, hpd], ?_⟩
      simp [Option.map_eq_none', List.getLast?_eq_none_iff]

/-- C9 witness: on the §8.8 store the handler returns, its cursor `"0"`
is the timestamp of the single post-filter row, and the feed is
non-empty exactly as the cursor is present. -/
theorem c9_outgoingCursor_witness :
    (whatsAlfHandler alfStore 10 none
      = Except.ok ⟨some "0",
          ["at://did:example:alice/app.bsky.feed.post/1"]⟩) ∧
    ((⟨some "0", ["at://did:example:alice/app.bsky.feed.post/1"]⟩
        : AlgoOutput).cursor
      = (whatsAlfReturnedRows alfStore 10 none).getLast?.map rowCursor ∧
    ((⟨some "0", ["at://did:example:alice/app.bsky.feed.post/1"]⟩
        : AlgoOutput).cursor = none ↔
      (⟨some "0", ["at://did:example:alice/app.bsky.feed.post/1"]⟩
        : AlgoOutput).feed = [])) :=
  ⟨rfl, c9_outgoingCursor alfStore 10 none _ rfl⟩
